import Mathlib

/-!
Verification of the core of the ChessEngine2021 repository: a shallow embedding
of the bitboard position store (Board.h / Board.cpp), the legal move generator
(MoveGen.cpp), the move sorter, the evaluator (Evaluation.cpp) and the
alpha-beta searcher (Search.cpp), together with theorems settling the
specification claims about them.

Bitboards are modelled as `Nat` values kept below `2 ^ 64`; every C++ shift
that can overflow a `uint64_t` is masked with `&&& FILLED_BOARD`, and `~x`
becomes `FILLED_BOARD ^^^ x`.  Enumerations (`PieceType`, `MoveType`) are
modelled as the `Nat` constants the C++ enums compile to, so that the
source's integer comparisons (`move.type < 4`, `if (move.captured)`, array
indexing) translate literally.
-/

namespace Chess

/-! ### Constants (Constants.h) -/

def ENGINE_IS_WHITE : Bool := true

def SEARCH_DEPTH : Nat := 5

def FILLED_BOARD : Nat := 0xFFFFFFFFFFFFFFFF

/-- Models a left shift of a `uint64_t`, which wraps modulo `2 ^ 64`. -/
def shl64 (x n : Nat) : Nat := (x <<< n) &&& FILLED_BOARD

/-- Models `~x` on a `uint64_t` (complement within 64 bits). -/
def compl64 (x : Nat) : Nat := FILLED_BOARD ^^^ x

def PLAYER_PAWN : Nat := 0
def PLAYER_KNIGHT : Nat := 1
def PLAYER_BISHOP : Nat := 2
def PLAYER_ROOK : Nat := 3
def PLAYER_QUEEN : Nat := 4
def PLAYER_KING : Nat := 5
def ENGINE_PAWN : Nat := 6
def ENGINE_KNIGHT : Nat := 7
def ENGINE_BISHOP : Nat := 8
def ENGINE_ROOK : Nat := 9
def ENGINE_QUEEN : Nat := 10
def ENGINE_KING : Nat := 11
def NONE : Nat := 12

def PIECE_VALUES : List Int := [100, 350, 400, 500, 800, 0, 100, 350, 400, 500, 800, 0]

def MAX_EVAL : Int := Int.ofNat (1 <<< 15)
def MIN_EVAL : Int := -MAX_EVAL

def RANK0 : Nat := 0xFF
def RANK1 : Nat := RANK0 <<< 8
def RANK2 : Nat := RANK1 <<< 8
def RANK3 : Nat := RANK2 <<< 8
def RANK4 : Nat := RANK3 <<< 8
def RANK5 : Nat := RANK4 <<< 8
def RANK6 : Nat := RANK5 <<< 8
def RANK7 : Nat := RANK6 <<< 8

def FILE0 : Nat := 0x0101010101010101
def FILE1 : Nat := FILE0 <<< 1
def FILE2 : Nat := FILE1 <<< 1
def FILE3 : Nat := FILE2 <<< 1
def FILE4 : Nat := FILE3 <<< 1
def FILE5 : Nat := FILE4 <<< 1
def FILE6 : Nat := FILE5 <<< 1
def FILE7 : Nat := FILE6 <<< 1

def PLAYER_KINGSIDE_CASTLE : Nat := if ENGINE_IS_WHITE then 0xE00000000000000 else 0x7000000000000000
def ENGINE_KINGSIDE_CASTLE : Nat := if ENGINE_IS_WHITE then 0x00000000000000E else 0x0000000000000070
def PLAYER_QUEENSIDE_CASTLE : Nat := if ENGINE_IS_WHITE then 0x3800000000000000 else 0x1C00000000000000
def ENGINE_QUEENSIDE_CASTLE : Nat := if ENGINE_IS_WHITE then 0x0000000000000038 else 0x000000000000001C

def ENGINE_QUEENSIDE_DESTINATION : Nat := if ENGINE_IS_WHITE then 0x0000000000000020 else 0x0000000000000004
def ENGINE_KINGSIDE_DESTINATION : Nat := if ENGINE_IS_WHITE then 0x0000000000000002 else 0x0000000000000040
def PLAYER_KINGSIDE_DESTINATION : Nat := if ENGINE_IS_WHITE then 0x0200000000000000 else 0x4000000000000000
def PLAYER_QUEENSIDE_DESTINATION : Nat := if ENGINE_IS_WHITE then 0x2000000000000000 else 0x0400000000000000

def PLAYER_KINGSIDE_ROOK : Nat := if ENGINE_IS_WHITE then 0x0100000000000000 else 0x8000000000000000
def ENGINE_KINGSIDE_ROOK : Nat := if ENGINE_IS_WHITE then 0x0000000000000001 else 0x0000000000000080
def PLAYER_QUEENSIDE_ROOK : Nat := if ENGINE_IS_WHITE then 0x8000000000000000 else 0x0100000000000000
def ENGINE_QUEENSIDE_ROOK : Nat := if ENGINE_IS_WHITE then 0x0000000000000080 else 0x0000000000000001

def CENTER_16_SQUARES : Nat := 0x00003C3C3C3C0000
def CENTER_4_SQUARES : Nat := 0x0000001818000000
def OUTER_SQUARES : Nat := 0xFF818181818181FF
def ENGINE_ADVANCED_PAWNS : Nat := 0x00003C3C3C000000
def PLAYER_ADVANCED_PAWNS : Nat := 0x0000003C3C3C0000
def PAWN_CENTER : Nat := 0x0000003C3C000000

def KNIGHT_MOVES : List Nat := [
  0x20400, 0x50800, 0xa1100, 0x142200, 0x284400, 0x508800, 0xa01000, 0x402000,
  0x2040004, 0x5080008, 0xa110011, 0x14220022, 0x28440044, 0x50880088, 0xa0100010, 0x40200020,
  0x204000402, 0x508000805, 0xa1100110a, 0x1422002214, 0x2844004428, 0x5088008850, 0xa0100010a0, 0x4020002040,
  0x20400040200, 0x50800080500, 0xa1100110a00, 0x142200221400, 0x284400442800, 0x508800885000, 0xa0100010a000, 0x402000204000,
  0x2040004020000, 0x5080008050000, 0xa1100110a0000, 0x14220022140000, 0x28440044280000, 0x50880088500000, 0xa0100010a00000, 0x40200020400000,
  0x204000402000000, 0x508000805000000, 0xa1100110a000000, 0x1422002214000000, 0x2844004428000000, 0x5088008850000000, 0xa0100010a0000000, 0x4020002040000000,
  0x400040200000000, 0x800080500000000, 0x1100110a00000000, 0x2200221400000000, 0x4400442800000000, 0x8800885000000000, 0x100010a000000000, 0x2000204000000000,
  0x4020000000000, 0x8050000000000, 0x110a0000000000, 0x22140000000000, 0x44280000000000, 0x88500000000000, 0x10a00000000000, 0x20400000000000
]

def KING_MOVES : List Nat := [
  0x302, 0x705, 0xe0a, 0x1c14, 0x3828, 0x7050, 0xe0a0, 0xc040,
  0x30203, 0x70507, 0xe0a0e, 0x1c141c, 0x382838, 0x705070, 0xe0a0e0, 0xc040c0,
  0x3020300, 0x7050700, 0xe0a0e00, 0x1c141c00, 0x38283800, 0x70507000, 0xe0a0e000, 0xc040c000,
  0x302030000, 0x705070000, 0xe0a0e0000, 0x1c141c0000, 0x3828380000, 0x7050700000, 0xe0a0e00000, 0xc040c00000,
  0x30203000000, 0x70507000000, 0xe0a0e000000, 0x1c141c000000, 0x382838000000, 0x705070000000, 0xe0a0e0000000, 0xc040c0000000,
  0x3020300000000, 0x7050700000000, 0xe0a0e00000000, 0x1c141c00000000, 0x38283800000000, 0x70507000000000, 0xe0a0e000000000, 0xc040c000000000,
  0x302030000000000, 0x705070000000000, 0xe0a0e0000000000, 0x1c141c0000000000, 0x3828380000000000, 0x7050700000000000, 0xe0a0e00000000000, 0xc040c00000000000,
  0x203000000000000, 0x507000000000000, 0xa0e000000000000, 0x141c000000000000, 0x2838000000000000, 0x5070000000000000, 0xa0e0000000000000, 0x40c0000000000000
]

/-! ### Bitboard primitives (Bitboards.h) -/

/-- Auxiliary fuel-bounded bit counter. -/
def popCountGo : Nat → Nat → Nat
  | 0, _ => 0
  | fuel + 1, b => (b &&& 1) + popCountGo fuel (b >>> 1)

/-- Models `__builtin_popcountll` on a 64-bit value. -/
def countSetBits (b : Nat) : Nat := popCountGo 64 b

/-- Auxiliary fuel-bounded trailing-zero counter. -/
def tzGo : Nat → Nat → Nat
  | 0, _ => 0
  | fuel + 1, b => if b &&& 1 == 1 then 0 else 1 + tzGo fuel (b >>> 1)

/-- Models `_mm_tzcnt_64`: index of the least significant set bit, 64 when the
argument is zero. -/
def getLeastSquare (b : Nat) : Nat := tzGo 64 b

/-- Models `boardOf`: a bitboard with a single set bit at the given index. -/
def boardOf (square : Nat) : Nat := 1 <<< square

/-- Models `board & (~board + 1)`: keeps only the least significant set bit
(the 64-bit two's complement trick from `popLeastBitboard`). -/
def popLeastBitboard (b : Nat) : Nat := b &&& (((b ^^^ FILLED_BOARD) + 1) &&& FILLED_BOARD)

/-- The set-bit indices of a bitboard below `2 ^ 64`, in ascending order.
This is the order in which the C++ `while (bb) { popLeastSquare(bb); ... }`
loops visit the bits. -/
def squaresOf (b : Nat) : List Nat := (List.range 64).filter (fun i => (b >>> i) &&& 1 == 1)

/-! ### Iterative slider attacks (MoveGen::getRookAttacks / getBishopAttacks)

Each C++ direction loop walks a fixed list of squares, accumulating attack
bits and stopping at the first blocker (which is included when `captures`). -/

def rayScan : List Nat → Nat → Bool → Nat
  | [], _, _ => 0
  | sq :: rest, blockers, captures =>
    let attack := boardOf sq
    if attack &&& blockers != 0 then (if captures then attack else 0)
    else attack ||| rayScan rest blockers captures

def northRay (s : Nat) : List Nat := ((List.range (s / 8)).reverse).map (fun r => r * 8 + s % 8)
def eastRay (s : Nat) : List Nat := (List.range (7 - s % 8)).map (fun i => s + i + 1)
def southRay (s : Nat) : List Nat := (List.range (7 - s / 8)).map (fun i => s + 8 * (i + 1))
def westRay (s : Nat) : List Nat := ((List.range (s % 8)).reverse).map (fun c => (s / 8) * 8 + c)

def getRookAttacks (s blockers : Nat) (captures : Bool) : Nat :=
  rayScan (northRay s) blockers captures ||| rayScan (eastRay s) blockers captures |||
  rayScan (southRay s) blockers captures ||| rayScan (westRay s) blockers captures

def neRay (s : Nat) : List Nat := (List.range (min (s / 8) (7 - s % 8))).map (fun i => s - 7 * (i + 1))
def seRay (s : Nat) : List Nat := (List.range (min (7 - s / 8) (7 - s % 8))).map (fun i => s + 9 * (i + 1))
def swRay (s : Nat) : List Nat := (List.range (min (7 - s / 8) (s % 8))).map (fun i => s + 7 * (i + 1))
def nwRay (s : Nat) : List Nat := (List.range (min (s / 8) (s % 8))).map (fun i => s - 9 * (i + 1))

def getBishopAttacks (s blockers : Nat) (captures : Bool) : Nat :=
  rayScan (neRay s) blockers captures ||| rayScan (seRay s) blockers captures |||
  rayScan (swRay s) blockers captures ||| rayScan (nwRay s) blockers captures

/-- Models `MoveGen::getRookBlockers`. -/
def getRookBlockers (s : Nat) : Nat :=
  let row := s / 8
  let col := s % 8
  let endpoints := boardOf col ||| boardOf (row * 8 + 7) ||| boardOf (56 + col) ||| boardOf (s - col)
  getRookAttacks s endpoints false

/-- Models `MoveGen::getBishopBlockers`. -/
def getBishopBlockers (s : Nat) : Nat := getBishopAttacks s OUTER_SQUARES false

/-- Models the table lookup `cardinalAttacks[s][(occupied & cardinals[s].blockers)
* cardinals[s].magic >> 52]`.  By the magic-hash theorem proved below
(`claim_C9`), for an accepted magic number that lookup returns exactly
`getRookAttacks s (occupied & blockers) true`, which is what this function
computes directly. -/
def cardinalAttackLookup (s occupied : Nat) : Nat :=
  getRookAttacks s (occupied &&& getRookBlockers s) true

/-- Models `ordinalAttacks[s][(occupied & ordinals[s].blockers) * ordinals[s].magic
>> 55]`; see `cardinalAttackLookup`. -/
def ordinalAttackLookup (s occupied : Nat) : Nat :=
  getBishopAttacks s (occupied &&& getBishopBlockers s) true

/-! ### Position, moves and the board (Board.h) -/

structure Position where
  pieces : List Nat
  playerCastleQueenside : Bool
  playerCastleKingside : Bool
  engineCastleQueenside : Bool
  engineCastleKingside : Bool
  enPassantCapture : Nat
deriving DecidableEq, Repr

structure Move where
  type : Nat
  fromSq : Nat
  toSq : Nat
  moving : Nat
  captured : Nat
deriving DecidableEq, Repr

def dummyMove : Move := { type := 5, fromSq := 0, toSq := 0, moving := 12, captured := 12 }

structure Board where
  position : Position
  engineToMove : Bool
  enginePieces : Nat
  playerOrEmpty : Nat
  playerPieces : Nat
  engineOrEmpty : Nat
  emptySquares : Nat
  occupiedSquares : Nat
deriving DecidableEq, Repr

/-- `position.pieces[i]` (the C++ array access). -/
def pieceBB (p : Position) (i : Nat) : Nat := p.pieces.getD i 0

def QUEEN_PROMOTION : Nat := 0
def KNIGHT_PROMOTION : Nat := 1
def BISHOP_PROMOTION : Nat := 2
def ROOK_PROMOTION : Nat := 3
def EN_PASSANT : Nat := 4
def NORMAL : Nat := 5

/-- Models `Board::update`: recompute the six derived masks from the twelve
piece bitboards. -/
def updateBoard (b : Board) : Board :=
  let enginePieces := pieceBB b.position ENGINE_PAWN ||| pieceBB b.position ENGINE_KNIGHT |||
                      pieceBB b.position ENGINE_BISHOP ||| pieceBB b.position ENGINE_ROOK |||
                      pieceBB b.position ENGINE_QUEEN ||| pieceBB b.position ENGINE_KING
  let playerPieces := pieceBB b.position PLAYER_PAWN ||| pieceBB b.position PLAYER_KNIGHT |||
                      pieceBB b.position PLAYER_BISHOP ||| pieceBB b.position PLAYER_ROOK |||
                      pieceBB b.position PLAYER_QUEEN ||| pieceBB b.position PLAYER_KING
  let occupiedSquares := enginePieces ||| playerPieces
  let emptySquares := compl64 occupiedSquares
  { b with
    enginePieces := enginePieces
    playerPieces := playerPieces
    occupiedSquares := occupiedSquares
    emptySquares := emptySquares
    playerOrEmpty := playerPieces ||| emptySquares
    engineOrEmpty := enginePieces ||| emptySquares }

def INITIAL_BOARD : List Nat := [
  ENGINE_ROOK, ENGINE_KNIGHT, ENGINE_BISHOP, if ENGINE_IS_WHITE then ENGINE_KING else ENGINE_QUEEN,
  if ENGINE_IS_WHITE then ENGINE_QUEEN else ENGINE_KING, ENGINE_BISHOP, ENGINE_KNIGHT, ENGINE_ROOK,
  ENGINE_PAWN, ENGINE_PAWN, ENGINE_PAWN, ENGINE_PAWN, ENGINE_PAWN, ENGINE_PAWN, ENGINE_PAWN, ENGINE_PAWN,
  NONE, NONE, NONE, NONE, NONE, NONE, NONE, NONE,
  NONE, NONE, NONE, NONE, NONE, NONE, NONE, NONE,
  NONE, NONE, NONE, NONE, NONE, NONE, NONE, NONE,
  NONE, NONE, NONE, NONE, NONE, NONE, NONE, NONE,
  PLAYER_PAWN, PLAYER_PAWN, PLAYER_PAWN, PLAYER_PAWN, PLAYER_PAWN, PLAYER_PAWN, PLAYER_PAWN, PLAYER_PAWN,
  PLAYER_ROOK, PLAYER_KNIGHT, PLAYER_BISHOP, if ENGINE_IS_WHITE then PLAYER_KING else PLAYER_QUEEN,
  if ENGINE_IS_WHITE then PLAYER_QUEEN else PLAYER_KING, PLAYER_BISHOP, PLAYER_KNIGHT, PLAYER_ROOK
]

/-- Models the `Board::Board` constructor: the standard starting array with all
four castling rights, derived masks refreshed, engine to move iff the engine
plays white. -/
def initialBoard : Board :=
  let startPos : Position := {
    pieces := [0, 0, 0, 0, 0, 0, 0, 0, 0, 0, 0, 0]
    playerCastleQueenside := true
    playerCastleKingside := true
    engineCastleQueenside := true
    engineCastleKingside := true
    enPassantCapture := 0 }
  let pos := (List.range 64).foldl
    (fun p square =>
      let piece := INITIAL_BOARD.getD square NONE
      if piece != NONE then
        { p with pieces := p.pieces.set piece (pieceBB p piece ||| boardOf square) }
      else p)
    startPos
  updateBoard {
    position := pos
    engineToMove := ENGINE_IS_WHITE
    enginePieces := 0
    playerOrEmpty := 0
    playerPieces := 0
    engineOrEmpty := 0
    emptySquares := 0
    occupiedSquares := 0 }

/-! ### makeMove (Board.h, `Board::makeMove<isEngine>`)

The C++ method mutates `position` field by field, then calls `update()` and
flips `engineToMove`.  `makeMovePos` performs exactly the position mutations,
in source order. -/

/-- All mutations `Board::makeMove<isEngine>` performs on the
`position.pieces` array, in source order: remove the mover from its origin,
promote or place it on the destination, remove the captured piece (at the
saved en-passant square for en-passant captures), and move the rook when the
king castles.  `hadCastle` is the value of the castling-rights test at the
point the king branch reads it (the mover's own rights, which the earlier
statements do not touch). -/
def movePieces (isEngine : Bool) (m : Move) (enPassant : Nat) (hadCastle : Bool)
    (pieces0 : List Nat) : List Nat :=
  let squareTo := boardOf m.toSq
  let squareFrom := boardOf m.fromSq
  -- remove the piece from its original square
  let pieces := pieces0.set m.moving (pieces0.getD m.moving 0 ^^^ squareFrom)
  -- if we are promoting, add the promoted piece to the destination square;
  -- otherwise place the moving piece onto its new square
  let pieces :=
    if m.type < 4 then
      if m.type == QUEEN_PROMOTION then
        let t := if isEngine then ENGINE_QUEEN else PLAYER_QUEEN
        pieces.set t (pieces.getD t 0 ||| squareTo)
      else if m.type == ROOK_PROMOTION then
        let t := if isEngine then ENGINE_ROOK else PLAYER_ROOK
        pieces.set t (pieces.getD t 0 ||| squareTo)
      else if m.type == BISHOP_PROMOTION then
        let t := if isEngine then ENGINE_BISHOP else PLAYER_BISHOP
        pieces.set t (pieces.getD t 0 ||| squareTo)
      else if m.type == KNIGHT_PROMOTION then
        let t := if isEngine then ENGINE_KNIGHT else PLAYER_KNIGHT
        pieces.set t (pieces.getD t 0 ||| squareTo)
      else pieces
    else pieces.set m.moving (pieces.getD m.moving 0 ||| squareTo)
  -- if we want to capture a piece, remove it (at the saved en-passant square
  -- for en-passant captures)
  let pieces :=
    if m.captured != NONE then
      pieces.set m.captured (pieces.getD m.captured 0 ^^^ (if m.type == EN_PASSANT then enPassant else squareTo))
    else pieces
  -- king moves: castle the rook when the king lands on a castling destination
  let movedKing := m.moving == (if isEngine then ENGINE_KING else PLAYER_KING)
  let pieces :=
    if movedKing && hadCastle &&
       squareTo &&& (if isEngine then ENGINE_KINGSIDE_DESTINATION else PLAYER_KINGSIDE_DESTINATION) != 0 then
      let rk := if isEngine then ENGINE_ROOK else PLAYER_ROOK
      let bb := pieces.getD rk 0 ^^^ (if isEngine then ENGINE_KINGSIDE_ROOK else PLAYER_KINGSIDE_ROOK)
      pieces.set rk (bb ||| (if ENGINE_IS_WHITE then shl64 squareTo 1 else squareTo >>> 1))
    else pieces
  let pieces :=
    if movedKing && hadCastle &&
       squareTo &&& (if isEngine then ENGINE_QUEENSIDE_DESTINATION else PLAYER_QUEENSIDE_DESTINATION) != 0 then
      let rk := if isEngine then ENGINE_ROOK else PLAYER_ROOK
      let bb := pieces.getD rk 0 ^^^ (if isEngine then ENGINE_QUEENSIDE_ROOK else PLAYER_QUEENSIDE_ROOK)
      pieces.set rk (bb ||| (if ENGINE_IS_WHITE then squareTo >>> 1 else shl64 squareTo 1))
    else pieces
  pieces

/-- The final `else if` chain of `Board::makeMove<isEngine>` as it acts on
`position.enPassantCapture` (cleared at the top of the function): a king or a
rook move leaves it cleared, and a pawn double push sets it to the destination
bitboard exactly when an enemy pawn sits next to the destination square on the
double-push rank.  `pawnsAfter` is the enemy pawn bitboard after the piece
updates. -/
def pawnDoublePushEpc (isEngine : Bool) (m : Move) (pawnsAfter : Nat) : Nat :=
  if m.moving == (if isEngine then ENGINE_KING else PLAYER_KING) then 0
  else if m.moving == (if isEngine then ENGINE_ROOK else PLAYER_ROOK) then 0
  else if m.moving == (if isEngine then ENGINE_PAWN else PLAYER_PAWN) &&
      Int.natAbs ((m.toSq : Int) - (m.fromSq : Int)) == 16 &&
      (shl64 (boardOf m.toSq) 1 ||| boardOf m.toSq >>> 1) &&&
        (if isEngine then RANK3 else RANK4) &&& pawnsAfter != 0 then
    boardOf m.toSq
  else 0

def makeMovePos (isEngine : Bool) (m : Move) (p : Position) : Position :=
  let enPassant := p.enPassantCapture
  let squareTo := boardOf m.toSq
  let squareFrom := boardOf m.fromSq
  -- capturing a rook on its original corner revokes the opponent's right
  let revokeOppK :=
    m.captured != NONE && m.captured == (if isEngine then PLAYER_ROOK else ENGINE_ROOK) &&
    (if isEngine then p.playerCastleKingside else p.engineCastleKingside) &&
    squareTo &&& (if isEngine then PLAYER_KINGSIDE_ROOK else ENGINE_KINGSIDE_ROOK) != 0
  let revokeOppQ :=
    m.captured != NONE && m.captured == (if isEngine then PLAYER_ROOK else ENGINE_ROOK) &&
    (if isEngine then p.playerCastleQueenside else p.engineCastleQueenside) &&
    squareTo &&& (if isEngine then PLAYER_QUEENSIDE_ROOK else ENGINE_QUEENSIDE_ROOK) != 0
  let playerCastleKingside := if isEngine && revokeOppK then false else p.playerCastleKingside
  let engineCastleKingside := if !isEngine && revokeOppK then false else p.engineCastleKingside
  let playerCastleQueenside := if isEngine && revokeOppQ then false else p.playerCastleQueenside
  let engineCastleQueenside := if !isEngine && revokeOppQ then false else p.engineCastleQueenside
  -- king moves: castle the rook when the king lands on a castling destination
  -- (the piece-array mutations, including this one, live in `movePieces`),
  -- then revoke both of the moving side's rights
  let movedKing := m.moving == (if isEngine then ENGINE_KING else PLAYER_KING)
  let hadCastle :=
    if isEngine then engineCastleKingside || engineCastleQueenside
    else playerCastleKingside || playerCastleQueenside
  let pieces := movePieces isEngine m enPassant hadCastle p.pieces
  let engineCastleKingside := if isEngine && movedKing && hadCastle then false else engineCastleKingside
  let engineCastleQueenside := if isEngine && movedKing && hadCastle then false else engineCastleQueenside
  let playerCastleKingside := if !isEngine && movedKing && hadCastle then false else playerCastleKingside
  let playerCastleQueenside := if !isEngine && movedKing && hadCastle then false else playerCastleQueenside
  -- rook moves from an original corner revoke the side's corresponding right
  let movedRook := !movedKing && m.moving == (if isEngine then ENGINE_ROOK else PLAYER_ROOK)
  let revokeOwnK :=
    movedRook && (if isEngine then engineCastleKingside else playerCastleKingside) &&
    squareFrom &&& (if isEngine then ENGINE_KINGSIDE_ROOK else PLAYER_KINGSIDE_ROOK) != 0
  let revokeOwnQ :=
    movedRook && (if isEngine then engineCastleQueenside else playerCastleQueenside) &&
    squareFrom &&& (if isEngine then ENGINE_QUEENSIDE_ROOK else PLAYER_QUEENSIDE_ROOK) != 0
  let engineCastleKingside := if isEngine && revokeOwnK then false else engineCastleKingside
  let playerCastleKingside := if !isEngine && revokeOwnK then false else playerCastleKingside
  let engineCastleQueenside := if isEngine && revokeOwnQ then false else engineCastleQueenside
  let playerCastleQueenside := if !isEngine && revokeOwnQ then false else playerCastleQueenside
  -- a pawn double push next to an enemy pawn enables en passant (the
  -- king / rook / pawn else-if chain, `pawnDoublePushEpc`)
  let enPassantCaptureOut :=
    pawnDoublePushEpc isEngine m (pieces.getD (if isEngine then PLAYER_PAWN else ENGINE_PAWN) 0)
  { pieces := pieces
    playerCastleQueenside := playerCastleQueenside
    playerCastleKingside := playerCastleKingside
    engineCastleQueenside := engineCastleQueenside
    engineCastleKingside := engineCastleKingside
    enPassantCapture := enPassantCaptureOut }

/-- Models `Board::makeMove<isEngine>`: mutate the position, refresh the
derived masks (`update()`), flip the side to move. -/
def makeMove (isEngine : Bool) (m : Move) (b : Board) : Board :=
  updateBoard { b with position := makeMovePos isEngine m b.position, engineToMove := !b.engineToMove }

/-! ### Piece lookup (Board.h, `getPlayerPieceType` etc.)

The C++ functions fall off the end in an `assert(false)`; the embedding
returns `none` on those unreachable paths. -/

def getPlayerPieceType (b : Board) (square : Nat) : Option Nat :=
  let mask := boardOf square
  if b.emptySquares &&& mask != 0 then some NONE
  else ((List.range 6).map (fun i => PLAYER_PAWN + i)).find? (fun t => pieceBB b.position t &&& mask != 0)

def getEnginePieceType (b : Board) (square : Nat) : Option Nat :=
  let mask := boardOf square
  if b.emptySquares &&& mask != 0 then some NONE
  else ((List.range 6).map (fun i => ENGINE_PAWN + i)).find? (fun t => pieceBB b.position t &&& mask != 0)

def getPieceType (b : Board) (square : Nat) : Option Nat :=
  let mask := boardOf square
  if b.emptySquares &&& mask != 0 then some NONE
  else if b.playerPieces &&& mask != 0 then getPlayerPieceType b square
  else if b.enginePieces &&& mask != 0 then getEnginePieceType b square
  else none

/-- The capture field the generators store: `getPlayerPieceType(to)` for engine
moves, `getEnginePieceType(to)` for player moves.  On the squares the
generators query, the lookup always succeeds; `NONE` stands for the
empty-square answer. -/
def capturedAt (isEngine : Bool) (b : Board) (square : Nat) : Nat :=
  (if isEngine then getPlayerPieceType b square else getEnginePieceType b square).getD NONE

/-! ### Square safety and check detection (MoveGen.cpp) -/

/-- Models `MoveGen::isSafeSquare<isEngine>`. -/
def isSafeSquare (isEngine : Bool) (b : Board) (square : Nat) : Bool :=
  let attacked := boardOf square
  let king := pieceBB b.position (if isEngine then ENGINE_KING else PLAYER_KING)
  -- the moving king is removed from the occupancy before the slider scans
  let cardinalAttackers := cardinalAttackLookup square (b.occupiedSquares &&& compl64 king)
  let ordinalAttackers := ordinalAttackLookup square (b.occupiedSquares &&& compl64 king)
  let cardinalAttackers := cardinalAttackers &&&
    (if isEngine then pieceBB b.position PLAYER_QUEEN ||| pieceBB b.position PLAYER_ROOK
     else pieceBB b.position ENGINE_QUEEN ||| pieceBB b.position ENGINE_ROOK)
  let ordinalAttackers := ordinalAttackers &&&
    (if isEngine then pieceBB b.position PLAYER_QUEEN ||| pieceBB b.position PLAYER_BISHOP
     else pieceBB b.position ENGINE_QUEEN ||| pieceBB b.position ENGINE_BISHOP)
  let attackers := cardinalAttackers ||| ordinalAttackers
  let attackers := attackers ||| (KNIGHT_MOVES.getD square 0 &&&
    (if isEngine then pieceBB b.position PLAYER_KNIGHT else pieceBB b.position ENGINE_KNIGHT))
  let attackers := attackers ||| (KING_MOVES.getD square 0 &&&
    (if isEngine then pieceBB b.position PLAYER_KING else pieceBB b.position ENGINE_KING))
  let attackers := attackers |||
    (if isEngine then shl64 (attacked &&& compl64 FILE7) 9 &&& pieceBB b.position PLAYER_PAWN
     else (attacked &&& compl64 FILE0) >>> 9 &&& pieceBB b.position ENGINE_PAWN)
  let attackers := attackers |||
    (if isEngine then shl64 (attacked &&& compl64 FILE0) 7 &&& pieceBB b.position PLAYER_PAWN
     else (attacked &&& compl64 FILE7) >>> 7 &&& pieceBB b.position ENGINE_PAWN)
  attackers == 0

/-- Models `MoveGen::isKingInCheck`. -/
def isKingInCheck (isEngine : Bool) (b : Board) : Bool :=
  !isSafeSquare isEngine b
    (getLeastSquare (pieceBB b.position (if isEngine then ENGINE_KING else PLAYER_KING)))

/-- Models `MoveGen::getBlockerSquares<isEngine>`: the squares a non-king piece
may land on given the checks against the side's king. -/
def getBlockerSquares (isEngine : Bool) (b : Board) : Nat :=
  let king := pieceBB b.position (if isEngine then ENGINE_KING else PLAYER_KING)
  let kingSquare := getLeastSquare king
  let cardinalAttackRays := cardinalAttackLookup kingSquare b.occupiedSquares
  let ordinalAttackRays := ordinalAttackLookup kingSquare b.occupiedSquares
  let cardinalAttackers := cardinalAttackRays &&&
    (if isEngine then pieceBB b.position PLAYER_QUEEN ||| pieceBB b.position PLAYER_ROOK
     else pieceBB b.position ENGINE_QUEEN ||| pieceBB b.position ENGINE_ROOK)
  let ordinalAttackers := ordinalAttackRays &&&
    (if isEngine then pieceBB b.position PLAYER_QUEEN ||| pieceBB b.position PLAYER_BISHOP
     else pieceBB b.position ENGINE_QUEEN ||| pieceBB b.position ENGINE_BISHOP)
  let attackers := cardinalAttackers ||| ordinalAttackers
  let attackers := attackers ||| (KNIGHT_MOVES.getD kingSquare 0 &&&
    (if isEngine then pieceBB b.position PLAYER_KNIGHT else pieceBB b.position ENGINE_KNIGHT))
  let attackers := attackers |||
    (if isEngine then shl64 (king &&& compl64 FILE7) 9 &&& pieceBB b.position PLAYER_PAWN
     else (king &&& compl64 FILE0) >>> 9 &&& pieceBB b.position ENGINE_PAWN)
  let attackers := attackers |||
    (if isEngine then shl64 (king &&& compl64 FILE0) 7 &&& pieceBB b.position PLAYER_PAWN
     else (king &&& compl64 FILE7) >>> 7 &&& pieceBB b.position ENGINE_PAWN)
  if attackers == 0 then FILLED_BOARD
  else if countSetBits attackers == 1 then
    if cardinalAttackers != 0 then
      let attacker := getLeastSquare cardinalAttackers
      (cardinalAttackRays &&& cardinalAttackLookup attacker b.occupiedSquares) ||| attackers
    else if ordinalAttackers != 0 then
      let attacker := getLeastSquare ordinalAttackers
      (ordinalAttackRays &&& ordinalAttackLookup attacker b.occupiedSquares) ||| attackers
    else attackers
  else 0

/-- Models `MoveGen::getCardinalPins<isEngine>`. -/
def getCardinalPins (isEngine : Bool) (b : Board) : Nat :=
  let king := getLeastSquare (pieceBB b.position (if isEngine then ENGINE_KING else PLAYER_KING))
  let possiblyPinned := cardinalAttackLookup king b.occupiedSquares &&&
    (if isEngine then b.enginePieces else b.playerPieces)
  -- rescan from the king with the candidate pinned pieces removed
  let pins := cardinalAttackLookup king (b.occupiedSquares &&& compl64 possiblyPinned)
  let pinning := pins &&&
    (if isEngine then pieceBB b.position PLAYER_QUEEN ||| pieceBB b.position PLAYER_ROOK
     else pieceBB b.position ENGINE_QUEEN ||| pieceBB b.position ENGINE_ROOK)
  (squaresOf pinning).foldl
    (fun acc pinningSquare =>
      let pin := cardinalAttackLookup pinningSquare (b.occupiedSquares &&& compl64 possiblyPinned)
      acc ||| (pins &&& pin) ||| boardOf pinningSquare)
    0

/-- Models `MoveGen::getOrdinalPins<isEngine>`. -/
def getOrdinalPins (isEngine : Bool) (b : Board) : Nat :=
  let king := getLeastSquare (pieceBB b.position (if isEngine then ENGINE_KING else PLAYER_KING))
  let possiblyPinned := ordinalAttackLookup king b.occupiedSquares &&&
    (if isEngine then b.enginePieces else b.playerPieces)
  let pins := ordinalAttackLookup king (b.occupiedSquares &&& compl64 possiblyPinned)
  let pinning := pins &&&
    (if isEngine then pieceBB b.position PLAYER_QUEEN ||| pieceBB b.position PLAYER_BISHOP
     else pieceBB b.position ENGINE_QUEEN ||| pieceBB b.position ENGINE_BISHOP)
  (squaresOf pinning).foldl
    (fun acc pinningSquare =>
      let pin := ordinalAttackLookup pinningSquare (b.occupiedSquares &&& compl64 possiblyPinned)
      acc ||| (pins &&& pin) ||| boardOf pinningSquare)
    0

/-! ### Per-piece move generation (MoveGen.cpp) -/

/-- The horizontal X-ray scan of the en-passant legality test: rook-scan along
the en-passant rank from the capturing pawn's square with the captured pawn
removed from the occupancy, keeping only the friendly king and enemy rooks
and queens.  The capture is rejected exactly when this has popcount 2. -/
def epPinScan (isEngine : Bool) (b : Board) (fromSq : Nat) : Nat :=
  let blockers := getRookBlockers fromSq &&& b.occupiedSquares &&& compl64 b.position.enPassantCapture
  getRookAttacks fromSq blockers true &&& (if isEngine then RANK4 else RANK3) &&&
    (pieceBB b.position (if isEngine then ENGINE_KING else PLAYER_KING) |||
     pieceBB b.position (if isEngine then PLAYER_QUEEN else ENGINE_QUEEN) |||
     pieceBB b.position (if isEngine then PLAYER_ROOK else ENGINE_ROOK))

/-- One en-passant candidate of `generatePawnMoves<isEngine>`: given the
capturing pawn's square, reject the capture if it breaks a diagonal pin or if
the horizontal X-ray scan hits exactly two of friendly-king-or-enemy-slider,
and otherwise emit the single en-passant move.  `isRight` selects the right
or left capture geometry (the destination offset; note the uint8_t wrap
`from + (isEngine ? 7 : -7)` modulo 256). -/
def epToSquare (isEngine isRight : Bool) (fromSq : Nat) : Nat :=
  if isRight then (if isEngine then fromSq + 7 else (fromSq + 256 - 7) % 256)
  else (if isEngine then fromSq + 9 else (fromSq + 256 - 9) % 256)

def epCandidateMoves (isEngine : Bool) (b : Board) (ordinalPins fromSq : Nat) (isRight : Bool) :
    List Move :=
  let toSquare := epToSquare isEngine isRight fromSq
  if boardOf fromSq &&& ordinalPins != 0 && boardOf toSquare &&& ordinalPins == 0 then []
  else if countSetBits (epPinScan isEngine b fromSq) != 2 then
    [{ type := EN_PASSANT, fromSq := fromSq, toSq := toSquare,
       moving := if isEngine then ENGINE_PAWN else PLAYER_PAWN,
       captured := if isEngine then PLAYER_PAWN else ENGINE_PAWN }]
  else []

/-- The en-passant block at the end of `generatePawnMoves<isEngine>`.  The
`pawns` local rebinds the piece bitboard with horizontally/vertically pinned
pawns removed, exactly as the C++ does before the capture generation. -/
def enPassantMoves (isEngine : Bool) (b : Board) (blockerSquares cardinalPins ordinalPins : Nat) :
    List Move :=
  let pawns := pieceBB b.position (if isEngine then ENGINE_PAWN else PLAYER_PAWN) &&&
    compl64 cardinalPins
  if b.position.enPassantCapture != 0 then
    let pawns := pawns &&& (if isEngine then RANK4 else RANK3)
    let rightEnPassant := b.position.enPassantCapture &&&
      (if isEngine then pawns >>> 1 else shl64 pawns 1) &&& blockerSquares
    let leftEnPassant := b.position.enPassantCapture &&&
      (if isEngine then shl64 pawns 1 else pawns >>> 1) &&& blockerSquares
    let rightMoves :=
      if rightEnPassant != 0 then
        epCandidateMoves isEngine b ordinalPins
          (getLeastSquare (if isEngine then shl64 rightEnPassant 1 else rightEnPassant >>> 1)) true
      else []
    let leftMoves :=
      if leftEnPassant != 0 then
        epCandidateMoves isEngine b ordinalPins
          (getLeastSquare (if isEngine then leftEnPassant >>> 1 else shl64 leftEnPassant 1)) false
      else []
    rightMoves ++ leftMoves
  else []

/-- Models `MoveGen::generatePawnMoves<isEngine>` (pushes, captures,
promotions and en passant, in source order). -/
def pawnMoves (isEngine : Bool) (b : Board) (blockerSquares cardinalPins ordinalPins : Nat) : List Move :=
  let pawns := pieceBB b.position (if isEngine then ENGINE_PAWN else PLAYER_PAWN)
  let singlePush :=
    (if isEngine then shl64 (pawns &&& compl64 ordinalPins) 8
     else (pawns &&& compl64 ordinalPins) >>> 8) &&& b.emptySquares
  let doublePush :=
    (if isEngine then shl64 (singlePush &&& RANK2) 8
     else (singlePush &&& RANK5) >>> 8) &&& b.emptySquares
  let singlePush := singlePush &&& blockerSquares
  let doublePush := doublePush &&& blockerSquares
  let singles := (squaresOf singlePush).flatMap (fun toSquare =>
    let fromSq := if isEngine then toSquare - 8 else toSquare + 8
    let squareTo := boardOf toSquare
    if boardOf fromSq &&& cardinalPins != 0 && squareTo &&& cardinalPins == 0 then []
    else if squareTo &&& (if isEngine then RANK7 else RANK0) != 0 then
      (List.range 4).map (fun promotionChoice =>
        { type := promotionChoice, fromSq := fromSq, toSq := toSquare,
          moving := if isEngine then ENGINE_PAWN else PLAYER_PAWN, captured := NONE })
    else
      [{ type := NORMAL, fromSq := fromSq, toSq := toSquare,
         moving := if isEngine then ENGINE_PAWN else PLAYER_PAWN, captured := NONE }])
  let doubles := (squaresOf doublePush).flatMap (fun toSquare =>
    let fromSq := if isEngine then toSquare - 16 else toSquare + 16
    if boardOf fromSq &&& cardinalPins != 0 && boardOf toSquare &&& cardinalPins == 0 then []
    else
      [{ type := NORMAL, fromSq := fromSq, toSq := toSquare,
         moving := if isEngine then ENGINE_PAWN else PLAYER_PAWN, captured := NONE }])
  -- a horizontally or vertically pinned pawn can never capture
  let pawns := pawns &&& compl64 cardinalPins
  let leftAttacks :=
    (if isEngine then shl64 (pawns &&& compl64 FILE7) 9 else (pawns &&& compl64 FILE0) >>> 9) &&&
    (if isEngine then b.playerPieces else b.enginePieces) &&& blockerSquares
  let lefts := (squaresOf leftAttacks).flatMap (fun toSquare =>
    let fromSq := if isEngine then toSquare - 9 else toSquare + 9
    let squareTo := boardOf toSquare
    if boardOf fromSq &&& ordinalPins != 0 && squareTo &&& ordinalPins == 0 then []
    else if squareTo &&& (if isEngine then RANK7 else RANK0) != 0 then
      (List.range 4).map (fun promotionChoice =>
        { type := promotionChoice, fromSq := fromSq, toSq := toSquare,
          moving := if isEngine then ENGINE_PAWN else PLAYER_PAWN, captured := capturedAt isEngine b toSquare })
    else
      [{ type := NORMAL, fromSq := fromSq, toSq := toSquare,
         moving := if isEngine then ENGINE_PAWN else PLAYER_PAWN, captured := capturedAt isEngine b toSquare }])
  let rightAttacks :=
    (if isEngine then shl64 (pawns &&& compl64 FILE0) 7 else (pawns &&& compl64 FILE7) >>> 7) &&&
    (if isEngine then b.playerPieces else b.enginePieces) &&& blockerSquares
  let rights := (squaresOf rightAttacks).flatMap (fun toSquare =>
    let fromSq := if isEngine then toSquare - 7 else toSquare + 7
    let squareTo := boardOf toSquare
    if boardOf fromSq &&& ordinalPins != 0 && squareTo &&& ordinalPins == 0 then []
    else if squareTo &&& (if isEngine then RANK7 else RANK0) != 0 then
      (List.range 4).map (fun promotionChoice =>
        { type := promotionChoice, fromSq := fromSq, toSq := toSquare,
          moving := if isEngine then ENGINE_PAWN else PLAYER_PAWN, captured := capturedAt isEngine b toSquare })
    else
      [{ type := NORMAL, fromSq := fromSq, toSq := toSquare,
         moving := if isEngine then ENGINE_PAWN else PLAYER_PAWN, captured := capturedAt isEngine b toSquare }])
  singles ++ doubles ++ lefts ++ rights ++
    enPassantMoves isEngine b blockerSquares cardinalPins ordinalPins

/-- Models `MoveGen::generateKnightMoves<isEngine>`. -/
def knightMoves (isEngine : Bool) (b : Board) (blockerSquares cardinalPins ordinalPins : Nat) : List Move :=
  let knights := pieceBB b.position (if isEngine then ENGINE_KNIGHT else PLAYER_KNIGHT) &&&
    compl64 (cardinalPins ||| ordinalPins)
  (squaresOf knights).flatMap (fun fromSq =>
    let moves := KNIGHT_MOVES.getD fromSq 0 &&&
      (if isEngine then b.playerOrEmpty else b.engineOrEmpty) &&& blockerSquares
    (squaresOf moves).map (fun toSquare =>
      { type := NORMAL, fromSq := fromSq, toSq := toSquare,
        moving := if isEngine then ENGINE_KNIGHT else PLAYER_KNIGHT,
        captured := capturedAt isEngine b toSquare }))

/-- Models `MoveGen::generateKingMoves<isEngine>` (ordinary king moves filtered
through `isSafeSquare`, plus castling). -/
def kingMoves (isEngine : Bool) (b : Board) : List Move :=
  let fromSq := getLeastSquare (pieceBB b.position (if isEngine then ENGINE_KING else PLAYER_KING))
  let moves := KING_MOVES.getD fromSq 0 &&& (if isEngine then b.playerOrEmpty else b.engineOrEmpty)
  let safeMoves := (squaresOf moves).foldl
    (fun acc square => if isSafeSquare isEngine b square then acc ||| boardOf square else acc) 0
  let safeMoves :=
    if (if isEngine then b.position.engineCastleQueenside else b.position.playerCastleQueenside) then
      let fullPath := if isEngine then ENGINE_QUEENSIDE_CASTLE else PLAYER_QUEENSIDE_CASTLE
      let extraSquare := if isEngine then ENGINE_QUEENSIDE_DESTINATION else PLAYER_QUEENSIDE_DESTINATION
      let path := (fullPath ||| (if ENGINE_IS_WHITE then shl64 extraSquare 1 else extraSquare >>> 1)) &&&
        b.emptySquares
      if countSetBits path == 3 then
        -- the C++ while loop adds the destination iff every path square is safe
        if (squaresOf fullPath).all (fun square => isSafeSquare isEngine b square) then
          safeMoves ||| (if isEngine then ENGINE_QUEENSIDE_DESTINATION else PLAYER_QUEENSIDE_DESTINATION)
        else safeMoves
      else safeMoves
    else safeMoves
  let safeMoves :=
    if (if isEngine then b.position.engineCastleKingside else b.position.playerCastleKingside) then
      let fullPath := if isEngine then ENGINE_KINGSIDE_CASTLE else PLAYER_KINGSIDE_CASTLE
      let path := fullPath &&& b.emptySquares
      if countSetBits path == 2 then
        if (squaresOf fullPath).all (fun square => isSafeSquare isEngine b square) then
          safeMoves ||| (if isEngine then ENGINE_KINGSIDE_DESTINATION else PLAYER_KINGSIDE_DESTINATION)
        else safeMoves
      else safeMoves
    else safeMoves
  (squaresOf safeMoves).map (fun toSquare =>
    { type := NORMAL, fromSq := fromSq, toSq := toSquare,
      moving := if isEngine then ENGINE_KING else PLAYER_KING,
      captured := capturedAt isEngine b toSquare })

/-- Models `MoveGen::generateBishopMoves<isEngine>`. -/
def bishopMoves (isEngine : Bool) (b : Board) (blockerSquares cardinalPins ordinalPins : Nat) : List Move :=
  let bishops := pieceBB b.position (if isEngine then ENGINE_BISHOP else PLAYER_BISHOP) &&&
    compl64 cardinalPins
  (squaresOf bishops).flatMap (fun fromSq =>
    let moves := ordinalAttackLookup fromSq b.occupiedSquares
    let moves := moves &&& (if isEngine then b.playerOrEmpty else b.engineOrEmpty) &&& blockerSquares
    let moves := if boardOf fromSq &&& ordinalPins != 0 then moves &&& ordinalPins else moves
    (squaresOf moves).map (fun toSquare =>
      { type := NORMAL, fromSq := fromSq, toSq := toSquare,
        moving := if isEngine then ENGINE_BISHOP else PLAYER_BISHOP,
        captured := capturedAt isEngine b toSquare }))

/-- Models `MoveGen::generateRookMoves<isEngine>`. -/
def rookMoves (isEngine : Bool) (b : Board) (blockerSquares cardinalPins ordinalPins : Nat) : List Move :=
  let rooks := pieceBB b.position (if isEngine then ENGINE_ROOK else PLAYER_ROOK) &&&
    compl64 ordinalPins
  (squaresOf rooks).flatMap (fun fromSq =>
    let moves := cardinalAttackLookup fromSq b.occupiedSquares
    let moves := moves &&& (if isEngine then b.playerOrEmpty else b.engineOrEmpty) &&& blockerSquares
    let moves := if boardOf fromSq &&& cardinalPins != 0 then moves &&& cardinalPins else moves
    (squaresOf moves).map (fun toSquare =>
      { type := NORMAL, fromSq := fromSq, toSq := toSquare,
        moving := if isEngine then ENGINE_ROOK else PLAYER_ROOK,
        captured := capturedAt isEngine b toSquare }))

/-- Models `MoveGen::generateQueenMoves<isEngine>`. -/
def queenMoves (isEngine : Bool) (b : Board) (blockerSquares cardinalPins ordinalPins : Nat) : List Move :=
  let queens := pieceBB b.position (if isEngine then ENGINE_QUEEN else PLAYER_QUEEN)
  (squaresOf queens).flatMap (fun fromSq =>
    let queen := boardOf fromSq
    let moves := 0
    let moves :=
      if queen &&& compl64 cardinalPins != 0 then
        let m := moves ||| ordinalAttackLookup fromSq b.occupiedSquares
        if queen &&& ordinalPins != 0 then m &&& ordinalPins else m
      else moves
    let moves :=
      if queen &&& compl64 ordinalPins != 0 then
        let m := moves ||| cardinalAttackLookup fromSq b.occupiedSquares
        if queen &&& cardinalPins != 0 then m &&& cardinalPins else m
      else moves
    let moves := moves &&& (if isEngine then b.playerOrEmpty else b.engineOrEmpty) &&& blockerSquares
    (squaresOf moves).map (fun toSquare =>
      { type := NORMAL, fromSq := fromSq, toSq := toSquare,
        moving := if isEngine then ENGINE_QUEEN else PLAYER_QUEEN,
        captured := capturedAt isEngine b toSquare }))

/-- Models `MoveGen::generateEngineMoves` / `generatePlayerMoves`: compute the
check and pin masks, then run the per-piece generators in source order. -/
def generateMoves (isEngine : Bool) (b : Board) : List Move :=
  let blockerSquares := getBlockerSquares isEngine b
  let cardinalPins := getCardinalPins isEngine b
  let ordinalPins := getOrdinalPins isEngine b
  pawnMoves isEngine b blockerSquares cardinalPins ordinalPins ++
  knightMoves isEngine b blockerSquares cardinalPins ordinalPins ++
  kingMoves isEngine b ++
  bishopMoves isEngine b blockerSquares cardinalPins ordinalPins ++
  rookMoves isEngine b blockerSquares cardinalPins ordinalPins ++
  queenMoves isEngine b blockerSquares cardinalPins ordinalPins

/-! ### Move sorting (MoveGen::getSortedMoves)

The C++ inner loop scores moves with `if (move.captured)` -- a nonzero test on
the `PieceType` enum, so `NONE` (= 12) also takes the capture branch and reads
`PIECE_VALUES[12]`, one past the end of the array.  The embedding models that
out-of-bounds read as the `getD` default 0.  The `score` local is only
reassigned inside the two branches, so a move that is neither "captured != 0"
nor a pawn move keeps the previous iteration's score. -/

def selectBest (generated : List Move) : Nat :=
  let st := (List.range generated.length).foldl
    (fun (st : Int × Int × Nat) index =>
      let score := st.1
      let bestScore := st.2.1
      let bestMoveIndex := st.2.2
      let move := generated.getD index dummyMove
      let score :=
        if move.captured != 0 then
          PIECE_VALUES.getD ENGINE_QUEEN 0 + PIECE_VALUES.getD move.captured 0 -
            PIECE_VALUES.getD move.moving 0
        else if move.moving == PLAYER_PAWN || move.moving == ENGINE_PAWN then 0
        else score
      if score > bestScore then (score, score, index) else (score, bestScore, bestMoveIndex))
    (0, -1, 0)
  st.2.2

def sortGo : Nat → List Move → List Move
  | 0, _ => []
  | fuel + 1, generated =>
    if generated.isEmpty then []
    else
      let bestMoveIndex := selectBest generated
      generated.getD bestMoveIndex dummyMove :: sortGo fuel (generated.eraseIdx bestMoveIndex)

/-- Models `MoveGen::getSortedMoves`: repeatedly extract the best-scoring
remaining move (draining the internal list), then `std::reverse` the result. -/
def getSortedMoves (generated : List Move) : List Move :=
  (sortGo generated.length generated).reverse

/-! ### Evaluation (Evaluation.cpp) -/

def evaluate (p : Position) : Int :=
  let score : Int := 0
  let score := (List.range 5).foldl
    (fun acc t => acc - (countSetBits (pieceBB p (PLAYER_PAWN + t)) : Int) * PIECE_VALUES.getD (PLAYER_PAWN + t) 0)
    score
  let score := (List.range 5).foldl
    (fun acc t => acc + (countSetBits (pieceBB p (ENGINE_PAWN + t)) : Int) * PIECE_VALUES.getD (ENGINE_PAWN + t) 0)
    score
  let score := score - (countSetBits (pieceBB p PLAYER_KNIGHT &&& CENTER_16_SQUARES) : Int) * 70
  let score := score + (countSetBits (pieceBB p ENGINE_KNIGHT &&& CENTER_16_SQUARES) : Int) * 70
  let score := score - (countSetBits (pieceBB p PLAYER_BISHOP &&& CENTER_16_SQUARES) : Int) * 60
  let score := score + (countSetBits (pieceBB p ENGINE_BISHOP &&& CENTER_16_SQUARES) : Int) * 60
  let score := score - (countSetBits (pieceBB p PLAYER_PAWN &&& PAWN_CENTER) : Int) * 10
  let score := score - (countSetBits (pieceBB p PLAYER_PAWN &&& CENTER_4_SQUARES) : Int) * 30
  let score := score - (countSetBits (pieceBB p PLAYER_PAWN &&& PLAYER_ADVANCED_PAWNS) : Int) * 15
  let score := score + (countSetBits (pieceBB p ENGINE_PAWN &&& PAWN_CENTER) : Int) * 10
  let score := score + (countSetBits (pieceBB p ENGINE_PAWN &&& CENTER_4_SQUARES) : Int) * 30
  let score := score + (countSetBits (pieceBB p ENGINE_PAWN &&& ENGINE_ADVANCED_PAWNS) : Int) * 15
  score

/-! ### The searcher (Search.cpp)

`Search::maximize` / `Search::minimize` clone the `Position` struct before
each move, apply the move, recurse, then restore the clone and flip
`engineToMove` -- without refreshing the derived masks.  `searchUndo` is that
restore step.  The loop state threads the mutated board exactly as the C++
threads its single `Board` object, including the early `break` on
`beta <= alpha` (modelled with a `stop` flag under which the remaining moves
pass the state through unchanged). -/

def searchUndo (b : Board) (clone : Position) : Board :=
  { b with position := clone, engineToMove := !b.engineToMove }

structure SearchState where
  board : Board
  bestScore : Int
  bound : Int
  stop : Bool

mutual

def maximize (ply : Nat) (alpha beta : Int) (b : Board) : Int × Board :=
  if h : SEARCH_DEPTH < ply then (evaluate b.position, b)
  else
    let moves := getSortedMoves (generateMoves true b)
    if moves.isEmpty then
      (if isKingInCheck true b then MIN_EVAL + (ply : Int) else 0, b)
    else
      let st := moves.foldl
        (fun (st : SearchState) move =>
          if st.stop then st
          else
            let clone := st.board.position
            let r := minimize (ply + 1) st.bound beta (makeMove true move st.board)
            let bestScore := if r.1 > st.bestScore then r.1 else st.bestScore
            let restored := searchUndo r.2 clone
            let alpha := if bestScore > st.bound then bestScore else st.bound
            { board := restored, bestScore := bestScore, bound := alpha,
              stop := decide (beta ≤ alpha) })
        { board := b, bestScore := MIN_EVAL, bound := alpha, stop := false }
      (st.bestScore, st.board)
termination_by SEARCH_DEPTH + 1 - ply
decreasing_by simp only [SEARCH_DEPTH] at *; omega

def minimize (ply : Nat) (alpha beta : Int) (b : Board) : Int × Board :=
  if h : SEARCH_DEPTH < ply then (evaluate b.position, b)
  else
    let moves := getSortedMoves (generateMoves false b)
    if moves.isEmpty then
      (if isKingInCheck false b then MAX_EVAL - (ply : Int) else 0, b)
    else
      let st := moves.foldl
        (fun (st : SearchState) move =>
          if st.stop then st
          else
            let clone := st.board.position
            let r := maximize (ply + 1) alpha st.bound (makeMove false move st.board)
            let bestScore := if r.1 < st.bestScore then r.1 else st.bestScore
            let restored := searchUndo r.2 clone
            let beta := if bestScore < st.bound then bestScore else st.bound
            { board := restored, bestScore := bestScore, bound := beta,
              stop := decide (beta ≤ alpha) })
        { board := b, bestScore := MAX_EVAL, bound := beta, stop := false }
      (st.bestScore, st.board)
termination_by SEARCH_DEPTH + 1 - ply
decreasing_by simp only [SEARCH_DEPTH] at *; omega

end

/-- All static evaluations at the leaves of the search tree below the given
node lie within `[-MAX_EVAL, MAX_EVAL]`.  (This over-approximates the visited
nodes: pruning only removes leaves.) -/
def evalsOK (isMax : Bool) (ply : Nat) (b : Board) : Prop :=
  if h : SEARCH_DEPTH < ply then -MAX_EVAL ≤ evaluate b.position ∧ evaluate b.position ≤ MAX_EVAL
  else ∀ m ∈ getSortedMoves (generateMoves isMax b), evalsOK (!isMax) (ply + 1) (makeMove isMax m b)
termination_by SEARCH_DEPTH + 1 - ply
decreasing_by simp only [SEARCH_DEPTH] at *; omega

/-! ### The magic-number trial (MoveGen::getMagicNumber)

One trial of the startup search: enumerate every permutation of the blocker
mask, hash it with the candidate magic, and record the attack set, failing on
any colliding hash whose recorded attack set differs.  On success the
`attacksSeen` array is copied into the per-square attack table, so the
returned list is that table. -/

/-- Models the permutation-decoding loop of `getMagicNumber`: the bits of
`permutation` select which set bits of `possibleBlockers` appear, consumed in
ascending bit order via `popLeastBitboard`. -/
def pdepGo : Nat → Nat → Nat → Nat
  | 0, _, _ => 0
  | fuel + 1, permutation, possibleBlockers =>
    if possibleBlockers == 0 then 0
    else
      let blocker := popLeastBitboard possibleBlockers
      let rest := pdepGo fuel (permutation >>> 1) (possibleBlockers ^^^ blocker)
      if permutation % 2 == 1 then blocker ||| rest else rest

def tryMagic (isCardinal : Bool) (square magic : Nat) : Option (List Nat) :=
  let blockerMask := if isCardinal then getRookBlockers square else getBishopBlockers square
  let numPermutations := 1 <<< countSetBits blockerMask
  let maxPermutations := if isCardinal then 4096 else 512
  let shift := if isCardinal then 52 else 55
  (List.range numPermutations).foldl
    (fun acc permutation =>
      match acc with
      | none => none
      | some attacksSeen =>
        let blockers := pdepGo 64 permutation blockerMask
        let attacks :=
          if isCardinal then getRookAttacks square blockers true
          else getBishopAttacks square blockers true
        let hash := ((blockers * magic) &&& FILLED_BOARD) >>> shift
        if attacksSeen.getD hash 0 == 0 then some (attacksSeen.set hash attacks)
        else if attacksSeen.getD hash 0 == attacks then some attacksSeen
        else none)
    (some (List.replicate maxPermutations 0))


/-! ### Concrete fixtures used by the claim theorems -/

/-- Build a board from a position, refreshing the derived masks (the way the
constructor and `makeMove` leave them). -/
def mkBoard (p : Position) (engineToMove : Bool) : Board :=
  updateBoard {
    position := p
    engineToMove := engineToMove
    enginePieces := 0
    playerOrEmpty := 0
    playerPieces := 0
    engineOrEmpty := 0
    emptySquares := 0
    occupiedSquares := 0 }

/-- Spec scenario 3 for the engine side: engine king cornered on square 0,
player queen a knight's jump away on square 17 (covering squares 1, 8, 9
without attacking square 0), player king far away on square 63.  The engine
has no legal moves and is not in check. -/
def engineStalemateBoard : Board :=
  mkBoard {
    pieces := [0, 0, 0, 0, 0x20000, 0x8000000000000000, 0, 0, 0, 0, 0, 1]
    playerCastleQueenside := false
    playerCastleKingside := false
    engineCastleQueenside := false
    engineCastleKingside := false
    enPassantCapture := 0 } true

/-- The mirror image of `engineStalemateBoard`: the player king is cornered on
square 0 by the engine queen on square 17. -/
def playerStalemateBoard : Board :=
  mkBoard {
    pieces := [0, 0, 0, 0, 0, 1, 0, 0, 0, 0, 0x20000, 0x8000000000000000]
    playerCastleQueenside := false
    playerCastleKingside := false
    engineCastleQueenside := false
    engineCastleKingside := false
    enPassantCapture := 0 } false

/-! In the board geometry of this engine (engine = white at the top, square 0
top left, king starting on column 3) the chess squares of spec scenario 5 map
to indices as follows: file a = column 7, file e = column 3, white rank 1 =
row 0, rank 5 = row 4.  So: white pawn e5 = 35, black pawn d5 = 36 (it just
double-pushed from d7 = 52), white king e1 = 3, black rook a5 = 39.  A black
king (required for a real game; the spec fixture leaves it implicit) is
placed on d8 = 60, far from the action.  `enPassantCapture` marks d5. -/

/-- The literal fixture of spec scenario 5 (claim C7): white king on e1. -/
def c7LiteralBoard : Board :=
  mkBoard {
    pieces := [0x1000000000, 0, 0, 0x8000000000, 0, 0x1000000000000000,
               0x800000000, 0, 0, 0, 0, 0x8]
    playerCastleQueenside := false
    playerCastleKingside := false
    engineCastleQueenside := false
    engineCastleKingside := false
    enPassantCapture := 0x1000000000 } true

/-- The amended fixture of claim C7: as `c7LiteralBoard` but with the white
king on h5 = 32, on the en-passant rank on the far side of the capturing pawn
from the rook, which creates the horizontal X-ray pin the scenario intends. -/
def c7AmendedBoard : Board :=
  mkBoard {
    pieces := [0x1000000000, 0, 0, 0x8000000000, 0, 0x1000000000000000,
               0x800000000, 0, 0, 0, 0, 0x100000000]
    playerCastleQueenside := false
    playerCastleKingside := false
    engineCastleQueenside := false
    engineCastleKingside := false
    enPassantCapture := 0x1000000000 } true

/-- A position with a right-hand en-passant candidate for the engine: engine
pawn on 36, player pawn that just double-pushed on 35 (`enPassantCapture`
set), kings far away, no rooks or queens. -/
def c6WitnessBoard : Board :=
  mkBoard {
    pieces := [0x800000000, 0, 0, 0, 0, 0x1000000000000000,
               0x1000000000, 0, 0, 0, 0, 0x8]
    playerCastleQueenside := false
    playerCastleKingside := false
    engineCastleQueenside := false
    engineCastleKingside := false
    enPassantCapture := 0x800000000 } true

/-- A position whose static evaluation exceeds `MAX_EVAL`: engine queens on
all 64 squares (64 * 800 = 51200 > 32768). -/
def hugeQueensBoard : Board :=
  mkBoard {
    pieces := [0, 0, 0, 0, 0, 0, 0, 0, 0, 0, FILLED_BOARD, 0]
    playerCastleQueenside := false
    playerCastleKingside := false
    engineCastleQueenside := false
    engineCastleKingside := false
    enPassantCapture := 0 } true

/-- The engine's first generated double push from the initial position
(pawn from square 8 to square 24). -/
def initialDoublePush : Move :=
  { type := NORMAL, fromSq := 8, toSq := 24, moving := ENGINE_PAWN, captured := NONE }

/-- The engine's pawn push from square 8 to square 16 from the initial
position, used to exhibit the stale derived masks after a search undo. -/
def c3Move : Move :=
  { type := NORMAL, fromSq := 8, toSq := 16, moving := ENGINE_PAWN, captured := NONE }

/-- A queen capturing a knight: sort key 800 + 350 - 800 = 350. -/
def queenTakesKnight : Move :=
  { type := NORMAL, fromSq := 0, toSq := 9, moving := ENGINE_QUEEN, captured := PLAYER_KNIGHT }

/-- A pawn capturing a knight: sort key 800 + 350 - 100 = 1050. -/
def pawnTakesKnight : Move :=
  { type := NORMAL, fromSq := 2, toSq := 9, moving := ENGINE_PAWN, captured := PLAYER_KNIGHT }

set_option maxRecDepth 400000

/-! ### Claim C1: perft 20 / 400 from the initial position -/

/-- C1: from the initial position built by the `Board` constructor, generating
the side-to-move's legal moves (the engine moves first, as
`engineToMove = ENGINE_IS_WHITE`) yields exactly 20 moves: 8 single pawn
pushes, 8 double pawn pushes and 4 knight moves; and applying each of the 20
moves and generating the opponent's legal moves yields 400 depth-2 move
sequences in total. -/
theorem claim_C1 :
    (generateMoves true initialBoard).length = 20 ∧
    ((generateMoves true initialBoard).filter
      (fun m => m.moving == ENGINE_PAWN && m.toSq - m.fromSq == 8)).length = 8 ∧
    ((generateMoves true initialBoard).filter
      (fun m => m.moving == ENGINE_PAWN && m.toSq - m.fromSq == 16)).length = 8 ∧
    ((generateMoves true initialBoard).filter
      (fun m => m.moving == ENGINE_KNIGHT)).length = 4 ∧
    ((generateMoves true initialBoard).map
      (fun m => (generateMoves false (makeMove true m initialBoard)).length)).foldl
      (fun a b => a + b) 0 = 400 :=
  ⟨rfl, rfl, rfl, rfl, rfl⟩

/-! ### Claim C2: getSortedMoves ordering -/

/-- C2 (refuted on the code): `getSortedMoves` does NOT return the moves in
descending key order.  The selection loop extracts the maximum-key move
first, but the trailing `std::reverse` then flips the list, so the returned
order is ascending -- the highest-keyed capture comes LAST.  On the
generation-order list `[queenTakesKnight, pawnTakesKnight]` (keys 350, 1050)
the claimed descending order would be `[pawnTakesKnight, queenTakesKnight]`;
the code returns the opposite.  Both moves are genuine captures, so the
out-of-bounds `PIECE_VALUES[NONE]` read for non-captures plays no role in
this input. -/
theorem claim_C2_eval :
    getSortedMoves [queenTakesKnight, pawnTakesKnight] =
      [queenTakesKnight, pawnTakesKnight] ∧
    getSortedMoves [queenTakesKnight, pawnTakesKnight] ≠
      [pawnTakesKnight, queenTakesKnight] ∧
    PIECE_VALUES.getD ENGINE_QUEEN 0 + PIECE_VALUES.getD queenTakesKnight.captured 0 -
        PIECE_VALUES.getD queenTakesKnight.moving 0 <
      PIECE_VALUES.getD ENGINE_QUEEN 0 + PIECE_VALUES.getD pawnTakesKnight.captured 0 -
        PIECE_VALUES.getD pawnTakesKnight.moving 0 := by
  refine ⟨rfl, ?_, by decide⟩
  decide

/-! ### Claim C7: spec scenario 5 (en-passant X-ray pin fixture) -/

/-- C7 (refuted on the code, and the code is right): in the literal fixture of
spec scenario 5 the white king is on e1, NOT on the en-passant rank, so
removing both pawns exposes no horizontal attack on the king; the rook-scan
from e5 hits only the rook (popcount 1, not 2) and the `exd6` en-passant
capture (pawn 35 to 44, capturing the pawn behind 36) IS generated -- which
is also the chess-correct answer for this position. -/
theorem claim_C7_counterexample :
    ({ type := EN_PASSANT, fromSq := 35, toSq := 44, moving := ENGINE_PAWN,
       captured := PLAYER_PAWN } : Move) ∈ generateMoves true c7LiteralBoard := by
  decide

/-- C7 amended: with the white king moved to h5 -- on the en-passant rank, on
the other side of the capturing pawn from the black rook on a5 -- the dual
removal does expose the king to the rook, the rank scan from e5 hits king and
rook (popcount 2), and no en-passant capture is generated. -/
theorem claim_C7 :
    (generateMoves true c7AmendedBoard).filter (fun m => m.type == EN_PASSANT) = [] := by
  decide

/-! ### Claim C3: the searcher's snapshot/restore round trip -/

/-- C3 (refuted on the code): the Searcher's undo -- restore the saved
`Position` struct and flip `engineToMove`, with no `update()` call -- does
NOT restore the six derived masks.  After undoing the legal pawn push
8 -> 16 from the initial position, `occupiedSquares` still shows the pawn on
square 16. -/
theorem claim_C3_counterexample :
    c3Move ∈ generateMoves true initialBoard ∧
    (searchUndo (makeMove true c3Move initialBoard) initialBoard.position).occupiedSquares ≠
      initialBoard.occupiedSquares ∧
    searchUndo (makeMove true c3Move initialBoard) initialBoard.position ≠ initialBoard := by
  refine ⟨by decide, by decide, by decide⟩

/-- C3 amended: for every board and move, the undo sequence used by the
Searcher restores the `Position` struct (the 12 piece bitboards, the four
castling rights and `enPassantCapture`) and the side to move bit-identically,
but the six derived masks keep the post-move values written by `makeMove`'s
`update()`; when the original board's masks were consistent, one further
`update()` restores the whole board bit-identically. -/
theorem claim_C3 (isEngine : Bool) (m : Move) (b : Board) (hcons : updateBoard b = b) :
    (searchUndo (makeMove isEngine m b) b.position).position = b.position ∧
    (searchUndo (makeMove isEngine m b) b.position).engineToMove = b.engineToMove ∧
    (searchUndo (makeMove isEngine m b) b.position).enginePieces = (makeMove isEngine m b).enginePieces ∧
    (searchUndo (makeMove isEngine m b) b.position).playerPieces = (makeMove isEngine m b).playerPieces ∧
    (searchUndo (makeMove isEngine m b) b.position).occupiedSquares = (makeMove isEngine m b).occupiedSquares ∧
    (searchUndo (makeMove isEngine m b) b.position).emptySquares = (makeMove isEngine m b).emptySquares ∧
    (searchUndo (makeMove isEngine m b) b.position).playerOrEmpty = (makeMove isEngine m b).playerOrEmpty ∧
    (searchUndo (makeMove isEngine m b) b.position).engineOrEmpty = (makeMove isEngine m b).engineOrEmpty ∧
    updateBoard (searchUndo (makeMove isEngine m b) b.position) = b := by
  cases b with
  | mk pos etm a1 a2 a3 a4 a5 a6 =>
    refine ⟨rfl, by simp [searchUndo, makeMove, updateBoard], rfl, rfl, rfl, rfl, rfl, rfl, ?_⟩
    simpa [searchUndo, makeMove, updateBoard] using hcons

/-- Witness for the amended C3 at the initial position and the pawn push
8 -> 16. -/
theorem claim_C3_witness :
    updateBoard initialBoard = initialBoard ∧
    ((searchUndo (makeMove true c3Move initialBoard) initialBoard.position).position =
        initialBoard.position ∧
      (searchUndo (makeMove true c3Move initialBoard) initialBoard.position).engineToMove =
        initialBoard.engineToMove ∧
      (searchUndo (makeMove true c3Move initialBoard) initialBoard.position).enginePieces =
        (makeMove true c3Move initialBoard).enginePieces ∧
      (searchUndo (makeMove true c3Move initialBoard) initialBoard.position).playerPieces =
        (makeMove true c3Move initialBoard).playerPieces ∧
      (searchUndo (makeMove true c3Move initialBoard) initialBoard.position).occupiedSquares =
        (makeMove true c3Move initialBoard).occupiedSquares ∧
      (searchUndo (makeMove true c3Move initialBoard) initialBoard.position).emptySquares =
        (makeMove true c3Move initialBoard).emptySquares ∧
      (searchUndo (makeMove true c3Move initialBoard) initialBoard.position).playerOrEmpty =
        (makeMove true c3Move initialBoard).playerOrEmpty ∧
      (searchUndo (makeMove true c3Move initialBoard) initialBoard.position).engineOrEmpty =
        (makeMove true c3Move initialBoard).engineOrEmpty ∧
      updateBoard (searchUndo (makeMove true c3Move initialBoard) initialBoard.position) =
        initialBoard) :=
  ⟨by decide, claim_C3 true c3Move initialBoard (by decide)⟩

/-! ### Shared bit-level helper lemmas -/

theorem testBit_boardOf (k j : Nat) : (boardOf k).testBit j = decide (k = j) := by
  simp [boardOf, Nat.one_shiftLeft, Nat.testBit_two_pow]

theorem and_boardOf_ne_zero {x k : Nat} : x &&& boardOf k ≠ 0 ↔ x.testBit k := by
  constructor
  · intro h
    by_contra hb
    apply h
    apply Nat.eq_of_testBit_eq
    intro j
    simp [Nat.testBit_and, testBit_boardOf]
    intro hx hk
    subst hk
    simp [hx] at hb
  · intro h h0
    have hbit : (x &&& boardOf k).testBit k = true := by
      simp [Nat.testBit_and, testBit_boardOf, h]
    rw [h0] at hbit
    simp [Nat.zero_testBit] at hbit

theorem mem_squaresOf {i bb : Nat} : i ∈ squaresOf bb ↔ i < 64 ∧ bb.testBit i := by
  simp only [squaresOf, List.mem_filter, List.mem_range]
  constructor
  · rintro ⟨h1, h2⟩
    refine ⟨h1, ?_⟩
    rw [Nat.testBit_to_div_mod]
    simpa [Nat.and_one_is_mod, Nat.shiftRight_eq_div_pow] using h2
  · rintro ⟨h1, h2⟩
    refine ⟨h1, ?_⟩
    rw [Nat.testBit_to_div_mod] at h2
    simpa [Nat.and_one_is_mod, Nat.shiftRight_eq_div_pow] using h2

theorem and_boardOf_eq_zero {x k : Nat} : x &&& boardOf k = 0 ↔ x.testBit k = false := by
  rw [← Bool.not_eq_true, ← and_boardOf_ne_zero]
  exact Decidable.not_not.symm

theorem find?_eq_some_of_unique {p : Nat → Bool} :
    ∀ (l : List Nat) (t : Nat), t ∈ l → p t = true → (∀ u ∈ l, p u = true → u = t) →
      l.find? p = some t := by
  intro l
  induction l with
  | nil => intro t h; cases h
  | cons a l ih =>
    intro t hmem hp huniq
    by_cases hpa : p a = true
    · have ha : a = t := huniq a (List.mem_cons_self a l) hpa
      subst ha
      simp [List.find?_cons_of_pos, hpa]
    · rw [List.find?_cons_of_neg _ (by simpa using hpa)]
      have hmem2 : t ∈ l := by
        rcases List.mem_cons.mp hmem with h | h
        · subst h; exact absurd hp hpa
        · exact h
      exact ih t hmem2 hp (fun u hu hpu => huniq u (List.mem_cons_of_mem _ hu) hpu)

set_option maxHeartbeats 1000000

theorem claim_C10 (b : Board) (square : Nat) (hsq : square < 64)
    (hcons : updateBoard b = b)
    (hdisj : ∀ i, i < 12 → ∀ j, j < 12 → i ≠ j → pieceBB b.position i &&& pieceBB b.position j = 0) :
    ((∀ t, t < 12 → pieceBB b.position t &&& boardOf square = 0) →
        getPieceType b square = some NONE) ∧
    (∀ t, t < 12 → pieceBB b.position t &&& boardOf square ≠ 0 →
        getPieceType b square = some t) ∧
    (getPieceType b square).isSome = true ∧
    (boardOf square &&& b.enginePieces = 0 → (getPlayerPieceType b square).isSome = true) ∧
    (boardOf square &&& b.playerPieces = 0 → (getEnginePieceType b square).isSome = true) := by
  have hE : b.enginePieces = pieceBB b.position ENGINE_PAWN ||| pieceBB b.position ENGINE_KNIGHT |||
      pieceBB b.position ENGINE_BISHOP ||| pieceBB b.position ENGINE_ROOK |||
      pieceBB b.position ENGINE_QUEEN ||| pieceBB b.position ENGINE_KING := by
    conv_lhs => rw [← hcons]
    rfl
  have hP : b.playerPieces = pieceBB b.position PLAYER_PAWN ||| pieceBB b.position PLAYER_KNIGHT |||
      pieceBB b.position PLAYER_BISHOP ||| pieceBB b.position PLAYER_ROOK |||
      pieceBB b.position PLAYER_QUEEN ||| pieceBB b.position PLAYER_KING := by
    conv_lhs => rw [← hcons]
    rfl
  have hM : b.emptySquares = compl64 (b.enginePieces ||| b.playerPieces) := by
    conv_rhs => rw [hE, hP]
    conv_lhs => rw [← hcons]
    rfl
  have hFB : FILLED_BOARD.testBit square = true := by
    rw [show FILLED_BOARD = 2 ^ 64 - 1 from by norm_num [FILLED_BOARD]]
    rw [Nat.testBit_two_pow_sub_one]
    simp [hsq]
  have hMbit : b.emptySquares.testBit square =
      !((b.enginePieces.testBit square) || (b.playerPieces.testBit square)) := by
    rw [hM]; simp [compl64, Nat.testBit_xor, hFB, Bool.true_xor]
  have hOrBit : ∀ t, t < 12 → (pieceBB b.position t).testBit square = true →
      (b.enginePieces.testBit square || b.playerPieces.testBit square) = true := by
    intro t ht hbt
    rw [hE, hP]
    simp only [Nat.testBit_or]
    interval_cases t <;> simp_all [PLAYER_PAWN, PLAYER_KNIGHT, PLAYER_BISHOP, PLAYER_ROOK, PLAYER_QUEEN, PLAYER_KING, ENGINE_PAWN, ENGINE_KNIGHT, ENGINE_BISHOP, ENGINE_ROOK, ENGINE_QUEEN, ENGINE_KING]
  have hOnly : ∀ t, t < 12 → (pieceBB b.position t).testBit square = true →
      ∀ u, u < 12 → u ≠ t → (pieceBB b.position u).testBit square = false := by
    intro t ht hbt u hu hut
    by_contra hc
    rw [Bool.not_eq_false] at hc
    have h0 := hdisj u hu t ht hut
    have hb2 : (pieceBB b.position u &&& pieceBB b.position t).testBit square = true := by
      simp [Nat.testBit_and, hc, hbt]
    rw [h0] at hb2
    simp [Nat.zero_testBit] at hb2
  have hlistP : ((List.range 6).map (fun i => PLAYER_PAWN + i)) = [0, 1, 2, 3, 4, 5] := by decide
  have hlistE : ((List.range 6).map (fun i => ENGINE_PAWN + i)) = [6, 7, 8, 9, 10, 11] := by decide
  have conjNone : (∀ t, t < 12 → pieceBB b.position t &&& boardOf square = 0) →
      getPieceType b square = some NONE := by
    intro hz
    have hzb : ∀ t, t < 12 → (pieceBB b.position t).testBit square = false := fun t ht =>
      and_boardOf_eq_zero.mp (hz t ht)
    have hebit : b.emptySquares.testBit square = true := by
      rw [hMbit, hE, hP]
      simp only [Nat.testBit_or, PLAYER_PAWN, PLAYER_KNIGHT, PLAYER_BISHOP, PLAYER_ROOK, PLAYER_QUEEN, PLAYER_KING, ENGINE_PAWN, ENGINE_KNIGHT, ENGINE_BISHOP, ENGINE_ROOK, ENGINE_QUEEN, ENGINE_KING]
      simp [hzb 0 (by omega), hzb 1 (by omega), hzb 2 (by omega), hzb 3 (by omega),
        hzb 4 (by omega), hzb 5 (by omega), hzb 6 (by omega), hzb 7 (by omega),
        hzb 8 (by omega), hzb 9 (by omega), hzb 10 (by omega), hzb 11 (by omega)]
    have hcond : (b.emptySquares &&& boardOf square != 0) = true := by
      simp only [ne_eq, bne_iff_ne]
      exact and_boardOf_ne_zero.mpr hebit
    simp [getPieceType, hcond]
  have conjSome : ∀ t, t < 12 → pieceBB b.position t &&& boardOf square ≠ 0 →
      getPieceType b square = some t := by
    intro t ht hbt0
    have hbt : (pieceBB b.position t).testBit square = true := and_boardOf_ne_zero.mp hbt0
    have hOr := hOrBit t ht hbt
    have hebit : b.emptySquares.testBit square = false := by
      rw [hMbit, hOr]; rfl
    have hcondE : (b.emptySquares &&& boardOf square != 0) = false := by
      simp only [ne_eq, bne_eq_false_iff_eq]
      exact and_boardOf_eq_zero.mpr hebit
    have hpred : ∀ u, u < 12 → u ≠ t → (pieceBB b.position u &&& boardOf square != 0) = false := by
      intro u hu hut
      simp only [ne_eq, bne_eq_false_iff_eq]
      exact and_boardOf_eq_zero.mpr (hOnly t ht hbt u hu hut)
    have hpredT : (pieceBB b.position t &&& boardOf square != 0) = true := by
      simp only [ne_eq, bne_iff_ne]
      exact hbt0
    by_cases ht6 : t < 6
    · have hpbit : b.playerPieces.testBit square = true := by
        rw [hP]
        simp only [Nat.testBit_or]
        interval_cases t <;> simp_all [PLAYER_PAWN, PLAYER_KNIGHT, PLAYER_BISHOP, PLAYER_ROOK, PLAYER_QUEEN, PLAYER_KING, ENGINE_PAWN, ENGINE_KNIGHT, ENGINE_BISHOP, ENGINE_ROOK, ENGINE_QUEEN, ENGINE_KING]
      have hcondP : (b.playerPieces &&& boardOf square != 0) = true := by
        simp only [ne_eq, bne_iff_ne]
        exact and_boardOf_ne_zero.mpr hpbit
      have hfind : ((List.range 6).map (fun i => PLAYER_PAWN + i)).find?
          (fun u => pieceBB b.position u &&& boardOf square != 0) = some t := by
        rw [hlistP]
        apply find?_eq_some_of_unique _ t
        · interval_cases t <;> simp
        · exact hpredT
        · intro u hu hpu
          by_contra hne
          have hu12 : u < 12 := by simp at hu; omega
          rw [hpred u hu12 hne] at hpu
          cases hpu
      simp [getPieceType, getPlayerPieceType, hcondE, hcondP, hfind]
    · have hpbit : b.playerPieces.testBit square = false := by
        rw [hP]
        simp only [Nat.testBit_or, PLAYER_PAWN, PLAYER_KNIGHT, PLAYER_BISHOP, PLAYER_ROOK, PLAYER_QUEEN, PLAYER_KING, ENGINE_PAWN, ENGINE_KNIGHT, ENGINE_BISHOP, ENGINE_ROOK, ENGINE_QUEEN, ENGINE_KING]
        simp [hOnly t ht hbt 0 (by omega) (by omega), hOnly t ht hbt 1 (by omega) (by omega),
          hOnly t ht hbt 2 (by omega) (by omega), hOnly t ht hbt 3 (by omega) (by omega),
          hOnly t ht hbt 4 (by omega) (by omega), hOnly t ht hbt 5 (by omega) (by omega)]
      have hcondP : (b.playerPieces &&& boardOf square != 0) = false := by
        simp only [ne_eq, bne_eq_false_iff_eq]
        exact and_boardOf_eq_zero.mpr hpbit
      have hengbit : b.enginePieces.testBit square = true := by
        have := hOr
        rw [hpbit] at this
        simpa using this
      have hcondEng : (b.enginePieces &&& boardOf square != 0) = true := by
        simp only [ne_eq, bne_iff_ne]
        exact and_boardOf_ne_zero.mpr hengbit
      have hfind : ((List.range 6).map (fun i => ENGINE_PAWN + i)).find?
          (fun u => pieceBB b.position u &&& boardOf square != 0) = some t := by
        rw [hlistE]
        apply find?_eq_some_of_unique _ t
        · interval_cases t <;> simp_all
        · exact hpredT
        · intro u hu hpu
          by_contra hne
          have hu12 : u < 12 := by simp at hu; omega
          rw [hpred u hu12 hne] at hpu
          cases hpu
      simp [getPieceType, getEnginePieceType, hcondE, hcondP, hcondEng, hfind]
  refine ⟨conjNone, conjSome, ?_, ?_, ?_⟩
  · by_cases hz : ∀ t, t < 12 → pieceBB b.position t &&& boardOf square = 0
    · rw [conjNone hz]; rfl
    · push_neg at hz
      obtain ⟨t, ht, hbt⟩ := hz
      rw [conjSome t ht hbt]; rfl
  · intro h
    by_cases he : b.emptySquares.testBit square = true
    · have hcond : (b.emptySquares &&& boardOf square != 0) = true := by
        simp only [ne_eq, bne_iff_ne]
        exact and_boardOf_ne_zero.mpr he
      simp [getPlayerPieceType, hcond]
    · rw [Bool.not_eq_true] at he
      have hcondE : (b.emptySquares &&& boardOf square != 0) = false := by
        simp only [ne_eq, bne_eq_false_iff_eq]
        exact and_boardOf_eq_zero.mpr he
      have hengbit : b.enginePieces.testBit square = false := by
        rw [Nat.land_comm] at h
        exact and_boardOf_eq_zero.mp h
      have hpbit : b.playerPieces.testBit square = true := by
        rw [hMbit, hengbit] at he
        simpa using he
      have hx : ∃ u, u ∈ [0, 1, 2, 3, 4, 5] ∧
          (pieceBB b.position u &&& boardOf square != 0) = true := by
        rw [hP] at hpbit
        simp only [Nat.testBit_or, Bool.or_eq_true, PLAYER_PAWN, PLAYER_KNIGHT, PLAYER_BISHOP, PLAYER_ROOK, PLAYER_QUEEN, PLAYER_KING, ENGINE_PAWN, ENGINE_KNIGHT, ENGINE_BISHOP, ENGINE_ROOK, ENGINE_QUEEN, ENGINE_KING] at hpbit
        have pick : ∀ u, (pieceBB b.position u).testBit square = true →
            (pieceBB b.position u &&& boardOf square != 0) = true := by
          intro u hu
          simp only [ne_eq, bne_iff_ne]
          exact and_boardOf_ne_zero.mpr hu
        rcases hpbit with ((((h0 | h1) | h2) | h3) | h4) | h5
        · exact ⟨0, by simp, pick 0 h0⟩
        · exact ⟨1, by simp, pick 1 h1⟩
        · exact ⟨2, by simp, pick 2 h2⟩
        · exact ⟨3, by simp, pick 3 h3⟩
        · exact ⟨4, by simp, pick 4 h4⟩
        · exact ⟨5, by simp, pick 5 h5⟩
      simp only [getPlayerPieceType, hcondE, hlistP]
      simp only [Bool.false_eq_true, if_false]
      exact List.find?_isSome.mpr hx
  · intro h
    by_cases he : b.emptySquares.testBit square = true
    · have hcond : (b.emptySquares &&& boardOf square != 0) = true := by
        simp only [ne_eq, bne_iff_ne]
        exact and_boardOf_ne_zero.mpr he
      simp [getEnginePieceType, hcond]
    · rw [Bool.not_eq_true] at he
      have hcondE : (b.emptySquares &&& boardOf square != 0) = false := by
        simp only [ne_eq, bne_eq_false_iff_eq]
        exact and_boardOf_eq_zero.mpr he
      have hpbit : b.playerPieces.testBit square = false := by
        rw [Nat.land_comm] at h
        exact and_boardOf_eq_zero.mp h
      have hengbit : b.enginePieces.testBit square = true := by
        rw [hMbit, hpbit] at he
        simpa using he
      have hx : ∃ u, u ∈ [6, 7, 8, 9, 10, 11] ∧
          (pieceBB b.position u &&& boardOf square != 0) = true := by
        rw [hE] at hengbit
        simp only [Nat.testBit_or, Bool.or_eq_true, PLAYER_PAWN, PLAYER_KNIGHT, PLAYER_BISHOP, PLAYER_ROOK, PLAYER_QUEEN, PLAYER_KING, ENGINE_PAWN, ENGINE_KNIGHT, ENGINE_BISHOP, ENGINE_ROOK, ENGINE_QUEEN, ENGINE_KING] at hengbit
        have pick : ∀ u, (pieceBB b.position u).testBit square = true →
            (pieceBB b.position u &&& boardOf square != 0) = true := by
          intro u hu
          simp only [ne_eq, bne_iff_ne]
          exact and_boardOf_ne_zero.mpr hu
        rcases hengbit with ((((h0 | h1) | h2) | h3) | h4) | h5
        · exact ⟨6, by simp, pick 6 h0⟩
        · exact ⟨7, by simp, pick 7 h1⟩
        · exact ⟨8, by simp, pick 8 h2⟩
        · exact ⟨9, by simp, pick 9 h3⟩
        · exact ⟨10, by simp, pick 10 h4⟩
        · exact ⟨11, by simp, pick 11 h5⟩
      simp only [getEnginePieceType, hcondE, hlistE]
      simp only [Bool.false_eq_true, if_false]
      exact List.find?_isSome.mpr hx


/-- Witness for C10 at the initial position, square 0 (the engine rook's home
corner). -/
theorem claim_C10_witness : getPieceType initialBoard 0 = some ENGINE_ROOK :=
  (claim_C10 initialBoard 0 (by decide) (by decide) (by decide)).2.1 ENGINE_ROOK (by decide)
    (by decide)

/-! ### Move-generator shape lemmas (for C6 and C8) -/

theorem testBit_FILLED (j : Nat) : FILLED_BOARD.testBit j = decide (j < 64) := by
  rw [show FILLED_BOARD = 2 ^ 64 - 1 from by norm_num [FILLED_BOARD]]
  rw [Nat.testBit_two_pow_sub_one]

theorem testBit_shl64 {x n j : Nat} :
    (shl64 x n).testBit j = (decide (n ≤ j) && x.testBit (j - n) && decide (j < 64)) := by
  simp only [shl64, Nat.testBit_and, Nat.testBit_shiftLeft, testBit_FILLED]

theorem tzGo_le : ∀ (fuel b : Nat), tzGo fuel b ≤ fuel := by
  intro fuel
  induction fuel with
  | zero => intro b; simp [tzGo]
  | succ f ih =>
    intro b
    rw [tzGo]
    split
    · omega
    · have := ih (b >>> 1)
      omega

theorem getLeastSquare_le (b : Nat) : getLeastSquare b ≤ 64 := tzGo_le 64 b

theorem boardOf_and_self_of_testBit {R t : Nat} (h : R.testBit t = true) :
    boardOf t &&& R = boardOf t := by
  apply Nat.eq_of_testBit_eq
  intro j
  simp only [Nat.testBit_and, testBit_boardOf]
  by_cases hj : t = j
  · subst hj; simp [h]
  · simp [hj]

theorem testBit_RANK2 {j : Nat} (h : RANK2.testBit j = true) : 16 ≤ j ∧ j < 24 := by
  rw [show RANK2 = (0xFF : Nat) <<< 16 from by decide] at h
  rw [Nat.testBit_shiftLeft] at h
  simp only [Bool.and_eq_true, decide_eq_true_eq] at h
  obtain ⟨h1, h2⟩ := h
  rw [show (0xFF : Nat) = 2 ^ 8 - 1 from by norm_num, Nat.testBit_two_pow_sub_one] at h2
  simp at h2
  omega

theorem testBit_RANK5 {j : Nat} (h : RANK5.testBit j = true) : 40 ≤ j ∧ j < 48 := by
  rw [show RANK5 = (0xFF : Nat) <<< 40 from by decide] at h
  rw [Nat.testBit_shiftLeft] at h
  simp only [Bool.and_eq_true, decide_eq_true_eq] at h
  obtain ⟨h1, h2⟩ := h
  rw [show (0xFF : Nat) = 2 ^ 8 - 1 from by norm_num, Nat.testBit_two_pow_sub_one] at h2
  simp at h2
  omega

theorem testBit_RANK3_of {j : Nat} (h : 24 ≤ j ∧ j < 32) : RANK3.testBit j = true := by
  rw [show RANK3 = (0xFF : Nat) <<< 24 from by decide]
  rw [Nat.testBit_shiftLeft]
  simp only [Bool.and_eq_true, decide_eq_true_eq]
  refine ⟨by omega, ?_⟩
  rw [show (0xFF : Nat) = 2 ^ 8 - 1 from by norm_num, Nat.testBit_two_pow_sub_one]
  simp
  omega

theorem testBit_RANK4_of {j : Nat} (h : 32 ≤ j ∧ j < 40) : RANK4.testBit j = true := by
  rw [show RANK4 = (0xFF : Nat) <<< 32 from by decide]
  rw [Nat.testBit_shiftLeft]
  simp only [Bool.and_eq_true, decide_eq_true_eq]
  refine ⟨by omega, ?_⟩
  rw [show (0xFF : Nat) = 2 ^ 8 - 1 from by norm_num, Nat.testBit_two_pow_sub_one]
  simp
  omega

theorem mem_ite_chain {c1 c2 : Bool} {mv m : Move} :
    (m ∈ if c1 = true then ([] : List Move) else if c2 = true then [mv] else []) ↔
      (c1 = false ∧ c2 = true ∧ m = mv) := by
  cases c1 <;> cases c2 <;> simp

theorem mem_ite_list {c : Bool} {l : List Move} {m : Move} :
    (m ∈ if c = true then l else []) ↔ (c = true ∧ m ∈ l) := by
  cases c <;> simp

theorem mem_epCandidateMoves {isEngine : Bool} {b : Board} {op fromSq : Nat} {isRight : Bool}
    {m : Move} :
    m ∈ epCandidateMoves isEngine b op fromSq isRight ↔
      ((boardOf fromSq &&& op != 0 &&
          boardOf (epToSquare isEngine isRight fromSq) &&& op == 0) = false ∧
        (countSetBits (epPinScan isEngine b fromSq) != 2) = true ∧
        m = { type := EN_PASSANT, fromSq := fromSq,
              toSq := epToSquare isEngine isRight fromSq,
              moving := if isEngine then ENGINE_PAWN else PLAYER_PAWN,
              captured := if isEngine then PLAYER_PAWN else ENGINE_PAWN }) := by
  simp only [epCandidateMoves]
  exact mem_ite_chain

theorem epToSquare_dist (isEngine isRight : Bool) (X : Nat) :
    Int.natAbs ((epToSquare isEngine isRight (getLeastSquare X) : Int) -
      (getLeastSquare X : Int)) ≠ 16 := by
  have h := getLeastSquare_le X
  cases isEngine <;> cases isRight <;>
    (simp only [epToSquare, ite_true, ite_false, Bool.false_eq_true, if_false, if_true]
     omega)

theorem pawnMoves_shape (isEngine : Bool) (b : Board) (bs cp op : Nat) :
    ∀ m ∈ pawnMoves isEngine b bs cp op,
      m.moving = (if isEngine then ENGINE_PAWN else PLAYER_PAWN) ∧
      (m.type = EN_PASSANT → m.captured = (if isEngine then PLAYER_PAWN else ENGINE_PAWN)) ∧
      (Int.natAbs ((m.toSq : Int) - (m.fromSq : Int)) = 16 →
        m.type = NORMAL ∧ m.captured = NONE ∧
        boardOf m.toSq &&& (if isEngine then RANK3 else RANK4) = boardOf m.toSq) := by
  intro m hm
  cases isEngine with
  | true =>
    simp only [pawnMoves, List.mem_append, if_true, ite_true] at hm
    rcases hm with ((((hm | hm) | hm) | hm) | hm)
    · -- engine single pushes
      simp only [List.mem_flatMap] at hm
      obtain ⟨t, ht, hin⟩ := hm
      rw [mem_squaresOf] at ht
      have hb : 8 ≤ t := by
        have h2 := ht.2
        simp only [Nat.testBit_and, Bool.and_eq_true, testBit_shl64, decide_eq_true_eq] at h2
        tauto
      split at hin
      · cases hin
      · split at hin
        · simp only [List.mem_map, List.mem_range] at hin
          obtain ⟨pc, hpc, rfl⟩ := hin
          refine ⟨rfl, ?_, ?_⟩
          · intro h
            simp only [EN_PASSANT] at h
            omega
          · intro hdist
            exfalso
            simp only [] at hdist
            omega
        · simp only [List.mem_singleton] at hin
          subst hin
          refine ⟨rfl, ?_, ?_⟩
          · intro h
            exact absurd h (by simp [NORMAL, EN_PASSANT])
          · intro hdist
            exfalso
            simp only [] at hdist
            omega
    · -- engine double pushes
      simp only [List.mem_flatMap] at hm
      obtain ⟨t, ht, hin⟩ := hm
      rw [mem_squaresOf] at ht
      have hb : 24 ≤ t ∧ t < 32 := by
        have h2 := ht.2
        simp only [Nat.testBit_and, Bool.and_eq_true, testBit_shl64, decide_eq_true_eq] at h2
        have h3 : RANK2.testBit (t - 8) = true := by tauto
        have h4 : 8 ≤ t := by tauto
        have h5 := testBit_RANK2 h3
        omega
      split at hin
      · cases hin
      · simp only [List.mem_singleton] at hin
        subst hin
        refine ⟨rfl, ?_, ?_⟩
        · intro h
          exact absurd h (by simp [NORMAL, EN_PASSANT])
        · intro hdist
          refine ⟨rfl, rfl, ?_⟩
          simp only [if_true, ite_true]
          exact boardOf_and_self_of_testBit (testBit_RANK3_of (by omega))
    · -- engine left captures
      simp only [List.mem_flatMap] at hm
      obtain ⟨t, ht, hin⟩ := hm
      rw [mem_squaresOf] at ht
      have hb : 9 ≤ t := by
        have h2 := ht.2
        simp only [Nat.testBit_and, Bool.and_eq_true, testBit_shl64, decide_eq_true_eq] at h2
        tauto
      split at hin
      · cases hin
      · split at hin
        · simp only [List.mem_map, List.mem_range] at hin
          obtain ⟨pc, hpc, rfl⟩ := hin
          refine ⟨rfl, ?_, ?_⟩
          · intro h
            simp only [EN_PASSANT] at h
            omega
          · intro hdist
            exfalso
            simp only [] at hdist
            omega
        · simp only [List.mem_singleton] at hin
          subst hin
          refine ⟨rfl, ?_, ?_⟩
          · intro h
            exact absurd h (by simp [NORMAL, EN_PASSANT])
          · intro hdist
            exfalso
            simp only [] at hdist
            omega
    · -- engine right captures
      simp only [List.mem_flatMap] at hm
      obtain ⟨t, ht, hin⟩ := hm
      rw [mem_squaresOf] at ht
      have hb : 7 ≤ t := by
        have h2 := ht.2
        simp only [Nat.testBit_and, Bool.and_eq_true, testBit_shl64, decide_eq_true_eq] at h2
        tauto
      split at hin
      · cases hin
      · split at hin
        · simp only [List.mem_map, List.mem_range] at hin
          obtain ⟨pc, hpc, rfl⟩ := hin
          refine ⟨rfl, ?_, ?_⟩
          · intro h
            simp only [EN_PASSANT] at h
            omega
          · intro hdist
            exfalso
            simp only [] at hdist
            omega
        · simp only [List.mem_singleton] at hin
          subst hin
          refine ⟨rfl, ?_, ?_⟩
          · intro h
            exact absurd h (by simp [NORMAL, EN_PASSANT])
          · intro hdist
            exfalso
            simp only [] at hdist
            omega
    · -- en passant block
      simp only [enPassantMoves] at hm
      rw [mem_ite_list] at hm
      obtain ⟨hepc, hm⟩ := hm
      simp only [List.mem_append] at hm
      rcases hm with hm | hm <;>
        (rw [mem_ite_list] at hm
         obtain ⟨hc, hm⟩ := hm
         rw [mem_epCandidateMoves] at hm
         obtain ⟨h1, h2, rfl⟩ := hm
         refine ⟨rfl, fun _ => rfl, ?_⟩
         intro hdist
         exfalso
         simp only [] at hdist
         exact absurd hdist (epToSquare_dist _ _ _))
  | false =>
    simp only [pawnMoves, List.mem_append, Bool.false_eq_true, if_false, ite_false] at hm
    rcases hm with ((((hm | hm) | hm) | hm) | hm)
    · -- player single pushes
      simp only [List.mem_flatMap] at hm
      obtain ⟨t, ht, hin⟩ := hm
      split at hin
      · cases hin
      · split at hin
        · simp only [List.mem_map, List.mem_range] at hin
          obtain ⟨pc, hpc, rfl⟩ := hin
          refine ⟨rfl, ?_, ?_⟩
          · intro h
            simp only [EN_PASSANT] at h
            omega
          · intro hdist
            exfalso
            simp only [] at hdist
            omega
        · simp only [List.mem_singleton] at hin
          subst hin
          refine ⟨rfl, ?_, ?_⟩
          · intro h
            exact absurd h (by simp [NORMAL, EN_PASSANT])
          · intro hdist
            exfalso
            simp only [] at hdist
            omega
    · -- player double pushes
      simp only [List.mem_flatMap] at hm
      obtain ⟨t, ht, hin⟩ := hm
      rw [mem_squaresOf] at ht
      have hb : 32 ≤ t ∧ t < 40 := by
        have h2 := ht.2
        simp only [Nat.testBit_and, Bool.and_eq_true, Nat.testBit_shiftRight] at h2
        have h3 : RANK5.testBit (8 + t) = true := by tauto
        have h5 := testBit_RANK5 h3
        omega
      split at hin
      · cases hin
      · simp only [List.mem_singleton] at hin
        subst hin
        refine ⟨rfl, ?_, ?_⟩
        · intro h
          exact absurd h (by simp [NORMAL, EN_PASSANT])
        · intro hdist
          refine ⟨rfl, rfl, ?_⟩
          simp only [Bool.false_eq_true, if_false, ite_false]
          exact boardOf_and_self_of_testBit (testBit_RANK4_of (by omega))
    · -- player left captures
      simp only [List.mem_flatMap] at hm
      obtain ⟨t, ht, hin⟩ := hm
      split at hin
      · cases hin
      · split at hin
        · simp only [List.mem_map, List.mem_range] at hin
          obtain ⟨pc, hpc, rfl⟩ := hin
          refine ⟨rfl, ?_, ?_⟩
          · intro h
            simp only [EN_PASSANT] at h
            omega
          · intro hdist
            exfalso
            simp only [] at hdist
            omega
        · simp only [List.mem_singleton] at hin
          subst hin
          refine ⟨rfl, ?_, ?_⟩
          · intro h
            exact absurd h (by simp [NORMAL, EN_PASSANT])
          · intro hdist
            exfalso
            simp only [] at hdist
            omega
    · -- player right captures
      simp only [List.mem_flatMap] at hm
      obtain ⟨t, ht, hin⟩ := hm
      split at hin
      · cases hin
      · split at hin
        · simp only [List.mem_map, List.mem_range] at hin
          obtain ⟨pc, hpc, rfl⟩ := hin
          refine ⟨rfl, ?_, ?_⟩
          · intro h
            simp only [EN_PASSANT] at h
            omega
          · intro hdist
            exfalso
            simp only [] at hdist
            omega
        · simp only [List.mem_singleton] at hin
          subst hin
          refine ⟨rfl, ?_, ?_⟩
          · intro h
            exact absurd h (by simp [NORMAL, EN_PASSANT])
          · intro hdist
            exfalso
            simp only [] at hdist
            omega
    · -- en passant block
      simp only [enPassantMoves] at hm
      rw [mem_ite_list] at hm
      obtain ⟨hepc, hm⟩ := hm
      simp only [List.mem_append] at hm
      rcases hm with hm | hm <;>
        (rw [mem_ite_list] at hm
         obtain ⟨hc, hm⟩ := hm
         rw [mem_epCandidateMoves] at hm
         obtain ⟨h1, h2, rfl⟩ := hm
         refine ⟨rfl, fun _ => rfl, ?_⟩
         intro hdist
         exfalso
         simp only [] at hdist
         exact absurd hdist (epToSquare_dist _ _ _))

theorem getD_set_ne {l : List Nat} {i j : Nat} (h : i ≠ j) (a d : Nat) :
    (l.set i a).getD j d = l.getD j d := by
  simp only [List.getD_eq_getElem?_getD, List.getElem?_set_ne h]

theorem knightMoves_shape (isEngine : Bool) (b : Board) (bs cp op : Nat) :
    ∀ m ∈ knightMoves isEngine b bs cp op,
      m.moving = (if isEngine then ENGINE_KNIGHT else PLAYER_KNIGHT) ∧ m.type = NORMAL := by
  intro m hm
  simp only [knightMoves, List.mem_flatMap, List.mem_map] at hm
  obtain ⟨f, hf, t, ht, rfl⟩ := hm
  exact ⟨rfl, rfl⟩

theorem kingMoves_shape (isEngine : Bool) (b : Board) :
    ∀ m ∈ kingMoves isEngine b,
      m.moving = (if isEngine then ENGINE_KING else PLAYER_KING) ∧ m.type = NORMAL := by
  intro m hm
  simp only [kingMoves, List.mem_map] at hm
  obtain ⟨t, ht, rfl⟩ := hm
  exact ⟨rfl, rfl⟩

theorem bishopMoves_shape (isEngine : Bool) (b : Board) (bs cp op : Nat) :
    ∀ m ∈ bishopMoves isEngine b bs cp op,
      m.moving = (if isEngine then ENGINE_BISHOP else PLAYER_BISHOP) ∧ m.type = NORMAL := by
  intro m hm
  simp only [bishopMoves, List.mem_flatMap, List.mem_map] at hm
  obtain ⟨f, hf, t, ht, rfl⟩ := hm
  exact ⟨rfl, rfl⟩

theorem rookMoves_shape (isEngine : Bool) (b : Board) (bs cp op : Nat) :
    ∀ m ∈ rookMoves isEngine b bs cp op,
      m.moving = (if isEngine then ENGINE_ROOK else PLAYER_ROOK) ∧ m.type = NORMAL := by
  intro m hm
  simp only [rookMoves, List.mem_flatMap, List.mem_map] at hm
  obtain ⟨f, hf, t, ht, rfl⟩ := hm
  exact ⟨rfl, rfl⟩

theorem queenMoves_shape (isEngine : Bool) (b : Board) (bs cp op : Nat) :
    ∀ m ∈ queenMoves isEngine b bs cp op,
      m.moving = (if isEngine then ENGINE_QUEEN else PLAYER_QUEEN) ∧ m.type = NORMAL := by
  intro m hm
  simp only [queenMoves, List.mem_flatMap, List.mem_map] at hm
  obtain ⟨f, hf, t, ht, rfl⟩ := hm
  exact ⟨rfl, rfl⟩


theorem pawnDoublePushEpc_spec (isEngine : Bool) (m : Move) (pawnsAfter : Nat) :
    pawnDoublePushEpc isEngine m pawnsAfter = 0 ∨
    (pawnDoublePushEpc isEngine m pawnsAfter = boardOf m.toSq ∧
     m.moving = (if isEngine then ENGINE_PAWN else PLAYER_PAWN) ∧
     Int.natAbs ((m.toSq : Int) - (m.fromSq : Int)) = 16 ∧
     (shl64 (boardOf m.toSq) 1 ||| boardOf m.toSq >>> 1) &&&
       (if isEngine then RANK3 else RANK4) &&& pawnsAfter ≠ 0) := by
  cases isEngine <;>
    (unfold pawnDoublePushEpc
     simp only [ite_true, ite_false, Bool.false_eq_true, if_true, if_false]
     split
     · exact Or.inl rfl
     split
     · exact Or.inl rfl
     split
     · rename_i h
       simp only [Bool.and_eq_true, beq_iff_eq, bne_iff_ne, ne_eq] at h
       exact Or.inr ⟨rfl, h.1.1, h.1.2, h.2⟩
     · exact Or.inl rfl)

theorem getD_set_self {l : List Nat} {i : Nat} (h : i < l.length) (a d : Nat) :
    (l.set i a).getD i d = a := by
  simp only [List.getD_eq_getElem?_getD, List.getElem?_set_self h, Option.getD_some]

theorem movePieces_ep (isEngine : Bool) (m : Move) (enPassant : Nat) (hadCastle : Bool)
    (l : List Nat) (hlen : l.length = 12)
    (ht : m.type = EN_PASSANT)
    (hmv : m.moving = (if isEngine then ENGINE_PAWN else PLAYER_PAWN))
    (hcap : m.captured = (if isEngine then PLAYER_PAWN else ENGINE_PAWN)) :
    (movePieces isEngine m enPassant hadCastle l).getD m.captured 0 =
      l.getD m.captured 0 ^^^ enPassant := by
  cases isEngine <;>
    (simp only [ite_true, ite_false, Bool.false_eq_true] at hmv hcap
     rw [movePieces]
     simp only [ht, hmv, hcap]
     norm_num [EN_PASSANT, ENGINE_PAWN, PLAYER_PAWN, ENGINE_KING, PLAYER_KING, NONE]
     simp [List.getD_eq_getElem?_getD, List.getElem?_set_self, List.getElem?_set_ne, hlen])

theorem countSetBits_boardOf : ∀ t, t < 64 → countSetBits (boardOf t) = 1 := by decide

theorem lt_64_of_and_rank {t : Nat} {R : Nat} (hR : R < 2 ^ 64)
    (h : boardOf t &&& R = boardOf t) : t < 64 := by
  by_contra hge
  push_neg at hge
  have h1 : (boardOf t).testBit t = true := by simp [testBit_boardOf]
  rw [← h] at h1
  simp only [Nat.testBit_and, Bool.and_eq_true] at h1
  have hlt : R < 2 ^ t := lt_of_lt_of_le hR (Nat.pow_le_pow_right (by norm_num) hge)
  rw [Nat.testBit_eq_false_of_lt hlt] at h1
  exact absurd h1.2 (by simp)

theorem makeMovePos_epc_eq (isEngine : Bool) (m : Move) (p : Position) :
    (makeMovePos isEngine m p).enPassantCapture =
      pawnDoublePushEpc isEngine m
        ((makeMovePos isEngine m p).pieces.getD (if isEngine then PLAYER_PAWN else ENGINE_PAWN) 0) :=
  rfl

theorem makeMovePos_pieces_ex (isEngine : Bool) (m : Move) (p : Position) :
    ∃ hc, (makeMovePos isEngine m p).pieces =
      movePieces isEngine m p.enPassantCapture hc p.pieces :=
  ⟨_, rfl⟩

/-- C8: after `makeMove`, `enPassantCapture` is either cleared or -- exactly
when the moved piece is the side's pawn that just double-pushed with an enemy
pawn adjacent on the destination rank -- the single-bit board of the
destination square, which lies on `RANK3` (engine push) or `RANK4` (player
push); and an en-passant capture removes the captured pawn at the previously
saved `enPassantCapture` square. -/
theorem claim_C8 (isEngine : Bool) (b : Board) (m : Move)
    (hm : m ∈ generateMoves isEngine b) (hlen : b.position.pieces.length = 12) :
    ((makeMovePos isEngine m b.position).enPassantCapture = 0 ∨
      ((makeMovePos isEngine m b.position).enPassantCapture = boardOf m.toSq ∧
       m.moving = (if isEngine then ENGINE_PAWN else PLAYER_PAWN) ∧
       Int.natAbs ((m.toSq : Int) - (m.fromSq : Int)) = 16 ∧
       countSetBits (makeMovePos isEngine m b.position).enPassantCapture = 1 ∧
       (makeMovePos isEngine m b.position).enPassantCapture &&&
           (if isEngine then RANK3 else RANK4) =
         (makeMovePos isEngine m b.position).enPassantCapture ∧
       (shl64 (boardOf m.toSq) 1 ||| boardOf m.toSq >>> 1) &&&
           (if isEngine then RANK3 else RANK4) &&&
         pieceBB (makeMovePos isEngine m b.position)
           (if isEngine then PLAYER_PAWN else ENGINE_PAWN) ≠ 0)) ∧
    (m.type = EN_PASSANT →
      pieceBB (makeMovePos isEngine m b.position) m.captured =
        pieceBB b.position m.captured ^^^ b.position.enPassantCapture) := by
  have hshape :
      m.moving = (if isEngine then ENGINE_PAWN else PLAYER_PAWN) →
      (m.type = EN_PASSANT → m.captured = (if isEngine then PLAYER_PAWN else ENGINE_PAWN)) ∧
      (Int.natAbs ((m.toSq : Int) - (m.fromSq : Int)) = 16 →
        m.type = NORMAL ∧ m.captured = NONE ∧
        boardOf m.toSq &&& (if isEngine then RANK3 else RANK4) = boardOf m.toSq) := by
    intro hmv
    simp only [generateMoves, List.mem_append] at hm
    rcases hm with ((((hm | hm) | hm) | hm) | hm) | hm
    · exact ((pawnMoves_shape isEngine b _ _ _ m hm).2)
    · exact absurd ((knightMoves_shape isEngine b _ _ _ m hm).1.symm.trans hmv)
        (by cases isEngine <;> simp [ENGINE_KNIGHT, PLAYER_KNIGHT, ENGINE_PAWN, PLAYER_PAWN])
    · exact absurd ((kingMoves_shape isEngine b m hm).1.symm.trans hmv)
        (by cases isEngine <;> simp [ENGINE_KING, PLAYER_KING, ENGINE_PAWN, PLAYER_PAWN])
    · exact absurd ((bishopMoves_shape isEngine b _ _ _ m hm).1.symm.trans hmv)
        (by cases isEngine <;> simp [ENGINE_BISHOP, PLAYER_BISHOP, ENGINE_PAWN, PLAYER_PAWN])
    · exact absurd ((rookMoves_shape isEngine b _ _ _ m hm).1.symm.trans hmv)
        (by cases isEngine <;> simp [ENGINE_ROOK, PLAYER_ROOK, ENGINE_PAWN, PLAYER_PAWN])
    · exact absurd ((queenMoves_shape isEngine b _ _ _ m hm).1.symm.trans hmv)
        (by cases isEngine <;> simp [ENGINE_QUEEN, PLAYER_QUEEN, ENGINE_PAWN, PLAYER_PAWN])
  constructor
  · rw [makeMovePos_epc_eq]
    rcases pawnDoublePushEpc_spec isEngine m
        ((makeMovePos isEngine m b.position).pieces.getD
          (if isEngine then PLAYER_PAWN else ENGINE_PAWN) 0) with h0 | ⟨heq, hmv, hdist, hadj⟩
    · exact Or.inl h0
    · right
      have hrank := ((hshape hmv).2 hdist).2.2
      have hlt : m.toSq < 64 := by
        refine lt_64_of_and_rank ?_ hrank
        cases isEngine <;> simp only [ite_true, ite_false, Bool.false_eq_true] <;>
          norm_num [RANK4, RANK3, RANK2, RANK1, RANK0] <;> decide
      rw [heq]
      exact ⟨rfl, hmv, hdist, by rw [countSetBits_boardOf m.toSq hlt], hrank, hadj⟩
  · intro htype
    have hmv : m.moving = (if isEngine then ENGINE_PAWN else PLAYER_PAWN) := by
      simp only [generateMoves, List.mem_append] at hm
      rcases hm with ((((hm | hm) | hm) | hm) | hm) | hm
      · exact (pawnMoves_shape isEngine b _ _ _ m hm).1
      · exact absurd ((knightMoves_shape isEngine b _ _ _ m hm).2.symm.trans htype)
          (by simp [NORMAL, EN_PASSANT])
      · exact absurd ((kingMoves_shape isEngine b m hm).2.symm.trans htype)
          (by simp [NORMAL, EN_PASSANT])
      · exact absurd ((bishopMoves_shape isEngine b _ _ _ m hm).2.symm.trans htype)
          (by simp [NORMAL, EN_PASSANT])
      · exact absurd ((rookMoves_shape isEngine b _ _ _ m hm).2.symm.trans htype)
          (by simp [NORMAL, EN_PASSANT])
      · exact absurd ((queenMoves_shape isEngine b _ _ _ m hm).2.symm.trans htype)
          (by simp [NORMAL, EN_PASSANT])
    have hcap := (hshape hmv).1 htype
    obtain ⟨hc, hpieces⟩ := makeMovePos_pieces_ex isEngine m b.position
    rw [pieceBB, pieceBB, hpieces, movePieces_ep isEngine m b.position.enPassantCapture hc
      b.position.pieces hlen htype hmv hcap]

theorem claim_C8_witness :
    (initialDoublePush ∈ generateMoves true initialBoard ∧
     initialBoard.position.pieces.length = 12) ∧
    (((makeMovePos true initialDoublePush initialBoard.position).enPassantCapture = 0 ∨
       ((makeMovePos true initialDoublePush initialBoard.position).enPassantCapture =
          boardOf initialDoublePush.toSq ∧
        initialDoublePush.moving = (if true then ENGINE_PAWN else PLAYER_PAWN) ∧
        Int.natAbs ((initialDoublePush.toSq : Int) - (initialDoublePush.fromSq : Int)) = 16 ∧
        countSetBits (makeMovePos true initialDoublePush initialBoard.position).enPassantCapture = 1 ∧
        (makeMovePos true initialDoublePush initialBoard.position).enPassantCapture &&&
            (if true then RANK3 else RANK4) =
          (makeMovePos true initialDoublePush initialBoard.position).enPassantCapture ∧
        (shl64 (boardOf initialDoublePush.toSq) 1 ||| boardOf initialDoublePush.toSq >>> 1) &&&
            (if true then RANK3 else RANK4) &&&
          pieceBB (makeMovePos true initialDoublePush initialBoard.position)
            (if true then PLAYER_PAWN else ENGINE_PAWN) ≠ 0)) ∧
     (initialDoublePush.type = EN_PASSANT →
       pieceBB (makeMovePos true initialDoublePush initialBoard.position) initialDoublePush.captured =
         pieceBB initialBoard.position initialDoublePush.captured ^^^
           initialBoard.position.enPassantCapture)) :=
  ⟨⟨by decide, by decide⟩, claim_C8 true initialBoard initialDoublePush (by decide) (by decide)⟩

theorem epToSquare_ne (isEngine : Bool) (f : Nat) :
    epToSquare isEngine true f ≠ epToSquare isEngine false f := by
  cases isEngine <;>
    simp only [epToSquare, ite_true, ite_false, Bool.false_eq_true, if_true, if_false] <;> omega

theorem pawnMoves_ep (isEngine : Bool) (b : Board) (bs cp op : Nat) :
    ∀ m ∈ pawnMoves isEngine b bs cp op, m.type = EN_PASSANT →
      m ∈ enPassantMoves isEngine b bs cp op := by
  intro m hm htype
  cases isEngine with
  | true =>
    simp only [pawnMoves, List.mem_append, if_true, ite_true] at hm
    rcases hm with ((((hm | hm) | hm) | hm) | hm)
    · simp only [List.mem_flatMap] at hm
      obtain ⟨t, ht, hin⟩ := hm
      split at hin
      · cases hin
      · split at hin
        · simp only [List.mem_map, List.mem_range] at hin
          obtain ⟨pc, hpc, rfl⟩ := hin
          simp only [EN_PASSANT] at htype
          omega
        · simp only [List.mem_singleton] at hin
          subst hin
          simp [NORMAL, EN_PASSANT] at htype
    · simp only [List.mem_flatMap] at hm
      obtain ⟨t, ht, hin⟩ := hm
      split at hin
      · cases hin
      · simp only [List.mem_singleton] at hin
        subst hin
        simp [NORMAL, EN_PASSANT] at htype
    · simp only [List.mem_flatMap] at hm
      obtain ⟨t, ht, hin⟩ := hm
      split at hin
      · cases hin
      · split at hin
        · simp only [List.mem_map, List.mem_range] at hin
          obtain ⟨pc, hpc, rfl⟩ := hin
          simp only [EN_PASSANT] at htype
          omega
        · simp only [List.mem_singleton] at hin
          subst hin
          simp [NORMAL, EN_PASSANT] at htype
    · simp only [List.mem_flatMap] at hm
      obtain ⟨t, ht, hin⟩ := hm
      split at hin
      · cases hin
      · split at hin
        · simp only [List.mem_map, List.mem_range] at hin
          obtain ⟨pc, hpc, rfl⟩ := hin
          simp only [EN_PASSANT] at htype
          omega
        · simp only [List.mem_singleton] at hin
          subst hin
          simp [NORMAL, EN_PASSANT] at htype
    · exact hm
  | false =>
    simp only [pawnMoves, List.mem_append, Bool.false_eq_true, if_false, ite_false] at hm
    rcases hm with ((((hm | hm) | hm) | hm) | hm)
    · simp only [List.mem_flatMap] at hm
      obtain ⟨t, ht, hin⟩ := hm
      split at hin
      · cases hin
      · split at hin
        · simp only [List.mem_map, List.mem_range] at hin
          obtain ⟨pc, hpc, rfl⟩ := hin
          simp only [EN_PASSANT] at htype
          omega
        · simp only [List.mem_singleton] at hin
          subst hin
          simp [NORMAL, EN_PASSANT] at htype
    · simp only [List.mem_flatMap] at hm
      obtain ⟨t, ht, hin⟩ := hm
      split at hin
      · cases hin
      · simp only [List.mem_singleton] at hin
        subst hin
        simp [NORMAL, EN_PASSANT] at htype
    · simp only [List.mem_flatMap] at hm
      obtain ⟨t, ht, hin⟩ := hm
      split at hin
      · cases hin
      · split at hin
        · simp only [List.mem_map, List.mem_range] at hin
          obtain ⟨pc, hpc, rfl⟩ := hin
          simp only [EN_PASSANT] at htype
          omega
        · simp only [List.mem_singleton] at hin
          subst hin
          simp [NORMAL, EN_PASSANT] at htype
    · simp only [List.mem_flatMap] at hm
      obtain ⟨t, ht, hin⟩ := hm
      split at hin
      · cases hin
      · split at hin
        · simp only [List.mem_map, List.mem_range] at hin
          obtain ⟨pc, hpc, rfl⟩ := hin
          simp only [EN_PASSANT] at htype
          omega
        · simp only [List.mem_singleton] at hin
          subst hin
          simp [NORMAL, EN_PASSANT] at htype
    · exact hm

/-- C6: with a nonzero en-passant target and a candidate capture on the chosen
side whose capturing pawn is not ordinally pinned, the en-passant move is
generated if and only if the horizontal X-ray scan (rook-scan along the
en-passant rank with the captured pawn removed, keeping friendly king and
enemy rooks and queens) does not hit exactly two pieces. -/
theorem claim_C6 (isEngine isRight : Bool) (b : Board) (pawns candidate fromSq : Nat)
    (hep : b.position.enPassantCapture ≠ 0)
    (hpawns : pawns = pieceBB b.position (if isEngine then ENGINE_PAWN else PLAYER_PAWN) &&&
      compl64 (getCardinalPins isEngine b) &&& (if isEngine then RANK4 else RANK3))
    (hcand : candidate = b.position.enPassantCapture &&&
      (if isRight then (if isEngine then pawns >>> 1 else shl64 pawns 1)
       else (if isEngine then shl64 pawns 1 else pawns >>> 1)) &&&
      getBlockerSquares isEngine b)
    (hne : candidate ≠ 0)
    (hfrom : fromSq = getLeastSquare
      (if isRight then (if isEngine then shl64 candidate 1 else candidate >>> 1)
       else (if isEngine then candidate >>> 1 else shl64 candidate 1)))
    (hnopin : boardOf fromSq &&& getOrdinalPins isEngine b = 0) :
    (({ type := EN_PASSANT, fromSq := fromSq, toSq := epToSquare isEngine isRight fromSq,
        moving := if isEngine then ENGINE_PAWN else PLAYER_PAWN,
        captured := if isEngine then PLAYER_PAWN else ENGINE_PAWN } : Move) ∈
         generateMoves isEngine b) ↔
      countSetBits (epPinScan isEngine b fromSq) ≠ 2 := by
  have hepb : (b.position.enPassantCapture != 0) = true := by simpa using hep
  have hpin : (boardOf fromSq &&& getOrdinalPins isEngine b != 0 &&
      boardOf (epToSquare isEngine isRight fromSq) &&&
        getOrdinalPins isEngine b == 0) = false := by
    simp [hnopin]
  cases isRight
  case false =>
    simp only [ite_true, ite_false, Bool.false_eq_true, if_true, if_false] at hcand hfrom hpin ⊢
    constructor
    · intro hmem
      have hEP : ({ type := EN_PASSANT, fromSq := fromSq,
                    toSq := epToSquare isEngine false fromSq,
                    moving := if isEngine then ENGINE_PAWN else PLAYER_PAWN,
                    captured := if isEngine then PLAYER_PAWN else ENGINE_PAWN } : Move) ∈
            enPassantMoves isEngine b (getBlockerSquares isEngine b)
              (getCardinalPins isEngine b) (getOrdinalPins isEngine b) := by
        simp only [generateMoves, List.mem_append] at hmem
        rcases hmem with ((((h | h) | h) | h) | h) | h
        · exact pawnMoves_ep isEngine b _ _ _ _ h rfl
        · exact absurd (knightMoves_shape isEngine b _ _ _ _ h).2 (by simp [NORMAL, EN_PASSANT])
        · exact absurd (kingMoves_shape isEngine b _ h).2 (by simp [NORMAL, EN_PASSANT])
        · exact absurd (bishopMoves_shape isEngine b _ _ _ _ h).2 (by simp [NORMAL, EN_PASSANT])
        · exact absurd (rookMoves_shape isEngine b _ _ _ _ h).2 (by simp [NORMAL, EN_PASSANT])
        · exact absurd (queenMoves_shape isEngine b _ _ _ _ h).2 (by simp [NORMAL, EN_PASSANT])
      simp only [enPassantMoves] at hEP
      rw [← hpawns] at hEP
      rw [mem_ite_list] at hEP
      obtain ⟨_, hEP⟩ := hEP
      simp only [List.mem_append] at hEP
      rcases hEP with hR | hL
      · rw [mem_ite_list] at hR
        obtain ⟨_, hR⟩ := hR
        rw [mem_epCandidateMoves] at hR
        obtain ⟨_, _, hEq⟩ := hR
        simp only [Move.mk.injEq] at hEq
        obtain ⟨_, hf, hts, _, _⟩ := hEq
        rw [← hf] at hts
        exact absurd hts.symm (epToSquare_ne isEngine fromSq)
      · rw [← hcand] at hL
        rw [mem_ite_list] at hL
        obtain ⟨_, hL⟩ := hL
        rw [← hfrom] at hL
        rw [mem_epCandidateMoves] at hL
        obtain ⟨_, hcount, _⟩ := hL
        simpa using hcount
    · intro hcount
      have hpm : ({ type := EN_PASSANT, fromSq := fromSq,
                    toSq := epToSquare isEngine false fromSq,
                    moving := if isEngine then ENGINE_PAWN else PLAYER_PAWN,
                    captured := if isEngine then PLAYER_PAWN else ENGINE_PAWN } : Move) ∈
            pawnMoves isEngine b (getBlockerSquares isEngine b)
              (getCardinalPins isEngine b) (getOrdinalPins isEngine b) := by
        simp only [pawnMoves, List.mem_append]
        refine Or.inr ?_
        simp only [enPassantMoves]
        rw [← hpawns]
        rw [mem_ite_list]
        refine ⟨hepb, ?_⟩
        simp only [List.mem_append]
        right
        rw [← hcand]
        rw [mem_ite_list]
        refine ⟨by simpa using hne, ?_⟩
        rw [← hfrom]
        rw [mem_epCandidateMoves]
        exact ⟨hpin, by simpa using hcount, rfl⟩
      rw [generateMoves]
      exact List.mem_append_left _ (List.mem_append_left _ (List.mem_append_left _
        (List.mem_append_left _ (List.mem_append_left _ hpm))))
  case true =>
    simp only [ite_true, ite_false, Bool.false_eq_true, if_true, if_false] at hcand hfrom hpin ⊢
    constructor
    · intro hmem
      have hEP : ({ type := EN_PASSANT, fromSq := fromSq,
                    toSq := epToSquare isEngine true fromSq,
                    moving := if isEngine then ENGINE_PAWN else PLAYER_PAWN,
                    captured := if isEngine then PLAYER_PAWN else ENGINE_PAWN } : Move) ∈
            enPassantMoves isEngine b (getBlockerSquares isEngine b)
              (getCardinalPins isEngine b) (getOrdinalPins isEngine b) := by
        simp only [generateMoves, List.mem_append] at hmem
        rcases hmem with ((((h | h) | h) | h) | h) | h
        · exact pawnMoves_ep isEngine b _ _ _ _ h rfl
        · exact absurd (knightMoves_shape isEngine b _ _ _ _ h).2 (by simp [NORMAL, EN_PASSANT])
        · exact absurd (kingMoves_shape isEngine b _ h).2 (by simp [NORMAL, EN_PASSANT])
        · exact absurd (bishopMoves_shape isEngine b _ _ _ _ h).2 (by simp [NORMAL, EN_PASSANT])
        · exact absurd (rookMoves_shape isEngine b _ _ _ _ h).2 (by simp [NORMAL, EN_PASSANT])
        · exact absurd (queenMoves_shape isEngine b _ _ _ _ h).2 (by simp [NORMAL, EN_PASSANT])
      simp only [enPassantMoves] at hEP
      rw [← hpawns] at hEP
      rw [mem_ite_list] at hEP
      obtain ⟨_, hEP⟩ := hEP
      simp only [List.mem_append] at hEP
      rcases hEP with hR | hL
      · rw [← hcand] at hR
        rw [mem_ite_list] at hR
        obtain ⟨_, hR⟩ := hR
        rw [← hfrom] at hR
        rw [mem_epCandidateMoves] at hR
        obtain ⟨_, hcount, _⟩ := hR
        simpa using hcount
      · rw [mem_ite_list] at hL
        obtain ⟨_, hL⟩ := hL
        rw [mem_epCandidateMoves] at hL
        obtain ⟨_, _, hEq⟩ := hL
        simp only [Move.mk.injEq] at hEq
        obtain ⟨_, hf, hts, _, _⟩ := hEq
        rw [← hf] at hts
        exact absurd hts (epToSquare_ne isEngine fromSq)
    · intro hcount
      have hpm : ({ type := EN_PASSANT, fromSq := fromSq,
                    toSq := epToSquare isEngine true fromSq,
                    moving := if isEngine then ENGINE_PAWN else PLAYER_PAWN,
                    captured := if isEngine then PLAYER_PAWN else ENGINE_PAWN } : Move) ∈
            pawnMoves isEngine b (getBlockerSquares isEngine b)
              (getCardinalPins isEngine b) (getOrdinalPins isEngine b) := by
        simp only [pawnMoves, List.mem_append]
        refine Or.inr ?_
        simp only [enPassantMoves]
        rw [← hpawns]
        rw [mem_ite_list]
        refine ⟨hepb, ?_⟩
        simp only [List.mem_append]
        left
        rw [← hcand]
        rw [mem_ite_list]
        refine ⟨by simpa using hne, ?_⟩
        rw [← hfrom]
        rw [mem_epCandidateMoves]
        exact ⟨hpin, by simpa using hcount, rfl⟩
      rw [generateMoves]
      exact List.mem_append_left _ (List.mem_append_left _ (List.mem_append_left _
        (List.mem_append_left _ (List.mem_append_left _ hpm))))

theorem claim_C6_witness :
    (c6WitnessBoard.position.enPassantCapture ≠ 0 ∧
     (0x1000000000 : Nat) = pieceBB c6WitnessBoard.position
         (if true then ENGINE_PAWN else PLAYER_PAWN) &&&
       compl64 (getCardinalPins true c6WitnessBoard) &&& (if true then RANK4 else RANK3) ∧
     (0x800000000 : Nat) = c6WitnessBoard.position.enPassantCapture &&&
       (if true then (if true then (0x1000000000 : Nat) >>> 1 else shl64 0x1000000000 1)
        else (if true then shl64 0x1000000000 1 else (0x1000000000 : Nat) >>> 1)) &&&
       getBlockerSquares true c6WitnessBoard ∧
     (0x800000000 : Nat) ≠ 0 ∧
     36 = getLeastSquare
       (if true then (if true then shl64 0x800000000 1 else (0x800000000 : Nat) >>> 1)
        else (if true then (0x800000000 : Nat) >>> 1 else shl64 0x800000000 1)) ∧
     boardOf 36 &&& getOrdinalPins true c6WitnessBoard = 0) ∧
    ((({ type := EN_PASSANT, fromSq := 36, toSq := epToSquare true true 36,
         moving := if true then ENGINE_PAWN else PLAYER_PAWN,
         captured := if true then PLAYER_PAWN else ENGINE_PAWN } : Move) ∈
          generateMoves true c6WitnessBoard) ↔
       countSetBits (epPinScan true c6WitnessBoard 36) ≠ 2) :=
  ⟨⟨by decide, by decide, by decide, by decide, by decide, by decide⟩,
   claim_C6 true true c6WitnessBoard 0x1000000000 0x800000000 36 (by decide) (by decide)
     (by decide) (by decide) (by decide) (by decide)⟩

/-! ### The search (claims C4 and C5) -/

/-- C4: at every ply with ply <= SEARCH_DEPTH, if the side to move has no
legal moves then `maximize` returns `MIN_EVAL + ply` when the engine king is
in check and 0 (stalemate) otherwise, and `minimize` returns `MAX_EVAL - ply`
when the player king is in check and 0 otherwise. -/
theorem claim_C4 (ply : Nat) (alpha beta : Int) (b : Board)
    (hply : ¬ SEARCH_DEPTH < ply) :
    (getSortedMoves (generateMoves true b) = [] →
      (maximize ply alpha beta b).1 =
        (if isKingInCheck true b then MIN_EVAL + (ply : Int) else 0)) ∧
    (getSortedMoves (generateMoves false b) = [] →
      (minimize ply alpha beta b).1 =
        (if isKingInCheck false b then MAX_EVAL - (ply : Int) else 0)) := by
  constructor
  · intro hmax
    rw [maximize, dif_neg hply]
    simp [hmax]
  · intro hmin
    rw [minimize, dif_neg hply]
    simp [hmin]

theorem claim_C4_witness :
    (maximize 3 MIN_EVAL MAX_EVAL engineStalemateBoard).1 = 0 ∧
    (minimize 3 MIN_EVAL MAX_EVAL playerStalemateBoard).1 = 0 := by
  constructor
  · rw [(claim_C4 3 MIN_EVAL MAX_EVAL engineStalemateBoard (by decide)).1 (by decide)]
    decide
  · rw [(claim_C4 3 MIN_EVAL MAX_EVAL playerStalemateBoard (by decide)).2 (by decide)]
    decide

theorem makeMove_congr {b1 b2 : Board} (e : Bool) (m : Move)
    (hp : b1.position = b2.position) (he : b1.engineToMove = b2.engineToMove) :
    makeMove e m b1 = makeMove e m b2 := by
  cases b1
  cases b2
  simp only at hp he
  simp [makeMove, updateBoard, hp, he]

theorem search_leaf (ply : Nat) (alpha beta : Int) (b : Board) (h : SEARCH_DEPTH < ply) :
    ((maximize ply alpha beta b).2.position = b.position ∧
     (maximize ply alpha beta b).2.engineToMove = b.engineToMove ∧
     (evalsOK true ply b →
       MIN_EVAL ≤ (maximize ply alpha beta b).1 ∧ (maximize ply alpha beta b).1 ≤ MAX_EVAL)) ∧
    ((minimize ply alpha beta b).2.position = b.position ∧
     (minimize ply alpha beta b).2.engineToMove = b.engineToMove ∧
     (evalsOK false ply b →
       MIN_EVAL ≤ (minimize ply alpha beta b).1 ∧ (minimize ply alpha beta b).1 ≤ MAX_EVAL)) := by
  refine ⟨⟨?_, ?_, ?_⟩, ⟨?_, ?_, ?_⟩⟩
  · rw [maximize, dif_pos h]
  · rw [maximize, dif_pos h]
  · intro hok
    rw [evalsOK, dif_pos h] at hok
    rw [maximize, dif_pos h]
    exact hok
  · rw [minimize, dif_pos h]
  · rw [minimize, dif_pos h]
  · intro hok
    rw [evalsOK, dif_pos h] at hok
    rw [minimize, dif_pos h]
    exact hok

theorem search_ok : ∀ n ply, SEARCH_DEPTH + 1 - ply ≤ n → ∀ (alpha beta : Int) (b : Board),
    ((maximize ply alpha beta b).2.position = b.position ∧
     (maximize ply alpha beta b).2.engineToMove = b.engineToMove ∧
     (evalsOK true ply b →
       MIN_EVAL ≤ (maximize ply alpha beta b).1 ∧ (maximize ply alpha beta b).1 ≤ MAX_EVAL)) ∧
    ((minimize ply alpha beta b).2.position = b.position ∧
     (minimize ply alpha beta b).2.engineToMove = b.engineToMove ∧
     (evalsOK false ply b →
       MIN_EVAL ≤ (minimize ply alpha beta b).1 ∧ (minimize ply alpha beta b).1 ≤ MAX_EVAL)) := by
  intro n
  induction n with
  | zero =>
    intro ply hply alpha beta b
    exact search_leaf ply alpha beta b (by omega)
  | succ n ih =>
    intro ply hply alpha beta b
    by_cases h : SEARCH_DEPTH < ply
    · exact search_leaf ply alpha beta b h
    · have hply' : SEARCH_DEPTH + 1 - (ply + 1) ≤ n := by omega
      have hplyle : ply ≤ SEARCH_DEPTH := by omega
      constructor
      · -- the maximize node
        by_cases hemp : (getSortedMoves (generateMoves true b)).isEmpty = true
        · refine ⟨?_, ?_, ?_⟩ <;> rw [maximize, dif_neg h] <;>
            simp only [hemp, if_true]
          · intro _
            have hM : MAX_EVAL = 32768 := by decide
            have hm2 : MIN_EVAL = -32768 := by decide
            simp only [SEARCH_DEPTH] at hplyle
            constructor <;> split <;> omega
        · have hemp' : (getSortedMoves (generateMoves true b)).isEmpty = false := by
            simpa using hemp
          rw [maximize, dif_neg h]
          simp only [hemp', Bool.false_eq_true, if_false]
          refine List.foldlRecOn (motive := fun (st : SearchState) =>
            st.board.position = b.position ∧
            st.board.engineToMove = b.engineToMove ∧
            (evalsOK true ply b → MIN_EVAL ≤ st.bestScore ∧ st.bestScore ≤ MAX_EVAL))
            _ _ _ ?_ ?_
          · exact ⟨rfl, rfl, fun _ => ⟨le_refl _, show MIN_EVAL ≤ MAX_EVAL by decide⟩⟩
          · intro st hC mv hmv
            by_cases hstop : st.stop = true
            · simpa [hstop] using hC
            · obtain ⟨hpos, heng, hbnd⟩ := hC
              simp only [hstop, Bool.false_eq_true, if_false]
              have hih := (ih (ply + 1) hply' st.bound beta (makeMove true mv st.board)).2
              obtain ⟨hrpos, hreng, hrbnd⟩ := hih
              have hmm : (makeMove true mv st.board).engineToMove = !st.board.engineToMove := rfl
              refine ⟨?_, ?_, ?_⟩
              · exact hpos
              · simp only [searchUndo]
                rw [hreng, hmm, Bool.not_not, heng]
              · intro hok
                have hkids := hok
                rw [evalsOK, dif_neg h] at hkids
                have hchild := hkids mv hmv
                rw [← makeMove_congr true mv hpos heng] at hchild
                have h1 := hrbnd hchild
                have h2 := hbnd hok
                constructor <;> split
                · exact h1.1
                · exact h2.1
                · exact h1.2
                · exact h2.2
      · -- the minimize node
        by_cases hemp : (getSortedMoves (generateMoves false b)).isEmpty = true
        · refine ⟨?_, ?_, ?_⟩ <;> rw [minimize, dif_neg h] <;>
            simp only [hemp, if_true]
          · intro _
            have hM : MAX_EVAL = 32768 := by decide
            have hm2 : MIN_EVAL = -32768 := by decide
            simp only [SEARCH_DEPTH] at hplyle
            constructor <;> split <;> omega
        · have hemp' : (getSortedMoves (generateMoves false b)).isEmpty = false := by
            simpa using hemp
          rw [minimize, dif_neg h]
          simp only [hemp', Bool.false_eq_true, if_false]
          refine List.foldlRecOn (motive := fun (st : SearchState) =>
            st.board.position = b.position ∧
            st.board.engineToMove = b.engineToMove ∧
            (evalsOK false ply b → MIN_EVAL ≤ st.bestScore ∧ st.bestScore ≤ MAX_EVAL))
            _ _ _ ?_ ?_
          · exact ⟨rfl, rfl, fun _ => ⟨show MIN_EVAL ≤ MAX_EVAL by decide, le_refl _⟩⟩
          · intro st hC mv hmv
            by_cases hstop : st.stop = true
            · simpa [hstop] using hC
            · obtain ⟨hpos, heng, hbnd⟩ := hC
              simp only [hstop, Bool.false_eq_true, if_false]
              have hih := (ih (ply + 1) hply' alpha st.bound (makeMove false mv st.board)).1
              obtain ⟨hrpos, hreng, hrbnd⟩ := hih
              have hmm : (makeMove false mv st.board).engineToMove = !st.board.engineToMove := rfl
              refine ⟨?_, ?_, ?_⟩
              · exact hpos
              · simp only [searchUndo]
                rw [hreng, hmm, Bool.not_not, heng]
              · intro hok
                have hkids := hok
                rw [evalsOK, dif_neg h] at hkids
                have hchild := hkids mv hmv
                rw [← makeMove_congr false mv hpos heng] at hchild
                have h1 := hrbnd hchild
                have h2 := hbnd hok
                constructor <;> split
                · exact h1.1
                · exact h2.1
                · exact h1.2
                · exact h2.2

/-- C5 (refuted on the code as literally stated): the static evaluation is a
material-and-placement sum with no clamping, so a leaf full of queens
evaluates far above MAX_EVAL, and `maximize` returns it unchanged. -/
theorem claim_C5_counterexample :
    MAX_EVAL < (maximize 6 MIN_EVAL MAX_EVAL hugeQueensBoard).1 := by
  rw [maximize, dif_pos (by decide)]
  decide

/-- C5 (amended): when every leaf static evaluation of the subtree lies within
[-MAX_EVAL, MAX_EVAL], every score returned by `maximize` or `minimize` lies
within [-MAX_EVAL, MAX_EVAL]; and a mated node (no legal moves, king in
check, ply <= SEARCH_DEPTH) returns a score with
|score| >= MAX_EVAL - SEARCH_DEPTH. -/
theorem claim_C5 (ply : Nat) (alpha beta : Int) (b : Board) :
    (evalsOK true ply b →
      -MAX_EVAL ≤ (maximize ply alpha beta b).1 ∧ (maximize ply alpha beta b).1 ≤ MAX_EVAL) ∧
    (evalsOK false ply b →
      -MAX_EVAL ≤ (minimize ply alpha beta b).1 ∧ (minimize ply alpha beta b).1 ≤ MAX_EVAL) ∧
    (¬ SEARCH_DEPTH < ply →
      ((getSortedMoves (generateMoves true b)).isEmpty = true →
        isKingInCheck true b = true →
        MAX_EVAL - (SEARCH_DEPTH : Int) ≤ |(maximize ply alpha beta b).1|) ∧
      ((getSortedMoves (generateMoves false b)).isEmpty = true →
        isKingInCheck false b = true →
        MAX_EVAL - (SEARCH_DEPTH : Int) ≤ |(minimize ply alpha beta b).1|)) := by
  obtain ⟨⟨_, _, hmax⟩, _, _, hmin⟩ :=
    search_ok (SEARCH_DEPTH + 1) ply (by omega) alpha beta b
  refine ⟨hmax, hmin, ?_⟩
  intro h
  have hplyle : ply ≤ SEARCH_DEPTH := by omega
  have hM : MAX_EVAL = 32768 := by decide
  have hm2 : MIN_EVAL = -32768 := by decide
  constructor
  · intro hemp hchk
    rw [maximize, dif_neg h]
    simp only [hemp, hchk, if_true]
    simp only [SEARCH_DEPTH] at hplyle ⊢
    rw [abs_of_nonpos (by omega)]
    omega
  · intro hemp hchk
    rw [minimize, dif_neg h]
    simp only [hemp, hchk, if_true]
    simp only [SEARCH_DEPTH] at hplyle ⊢
    rw [abs_of_nonneg (by omega)]
    omega

theorem claim_C5_witness :
    -MAX_EVAL ≤ (maximize 6 MIN_EVAL MAX_EVAL initialBoard).1 ∧
    (maximize 6 MIN_EVAL MAX_EVAL initialBoard).1 ≤ MAX_EVAL :=
  (claim_C5 6 MIN_EVAL MAX_EVAL initialBoard).1
    (by rw [evalsOK, dif_pos (by decide)]; exact ⟨by decide, by decide⟩)

/-! ### Bit-level lemmas for the magic-number claim (C9) -/

theorem popCountGo_le (fuel : Nat) : ∀ b, popCountGo fuel b ≤ fuel := by
  induction fuel with
  | zero => intro b; simp [popCountGo]
  | succ f ih =>
    intro b
    have h1 : b &&& 1 ≤ 1 := Nat.and_le_right
    have h2 := ih (b >>> 1)
    simp only [popCountGo]
    omega

theorem popCountGo_eq_zero (fuel : Nat) : ∀ b, b < 2 ^ fuel → popCountGo fuel b = 0 → b = 0 := by
  induction fuel with
  | zero => intro b hb _; omega
  | succ f ih =>
    intro b hb h0
    simp only [popCountGo] at h0
    have h1 : b &&& 1 = 0 := by omega
    have h2 : popCountGo f (b >>> 1) = 0 := by omega
    have h3 : b >>> 1 < 2 ^ f := by
      rw [Nat.shiftRight_one]
      omega
    have h4 := ih (b >>> 1) h3 h2
    rw [Nat.shiftRight_one] at h4
    rw [Nat.and_one_is_mod] at h1
    omega

theorem popCountGo_xor_two_pow :
    ∀ fuel t b, t < fuel → b.testBit t = true →
      popCountGo fuel (b ^^^ 2 ^ t) + 1 = popCountGo fuel b := by
  intro fuel
  induction fuel with
  | zero => intro t b ht _; omega
  | succ f ih =>
    intro t b ht hbit
    match t with
    | 0 =>
      have hodd : b &&& 1 = 1 := by
        rw [Nat.and_one_is_mod]
        rw [Nat.testBit_zero] at hbit
        simpa using hbit
      have heven : (b ^^^ 1) &&& 1 = 0 := by
        have h0 : (b ^^^ 1).testBit 0 = false := by
          rw [Nat.testBit_xor, hbit]
          simp
        rw [Nat.testBit_zero, decide_eq_false_iff_not] at h0
        rw [Nat.and_one_is_mod]
        omega
      have hsh : (b ^^^ 1) >>> 1 = b >>> 1 := by
        rw [Nat.shiftRight_one, Nat.shiftRight_one, Nat.xor_div_two]
        simp
      simp only [pow_zero, popCountGo, hsh, heven, hodd]
      omega
    | t' + 1 =>
      have hlow : (b ^^^ 2 ^ (t' + 1)) &&& 1 = b &&& 1 := by
        rw [Nat.and_one_is_mod, Nat.and_one_is_mod]
        rcases Nat.mod_two_eq_zero_or_one b with h | h <;>
          simp [Nat.xor_mod_two_eq_one, h, Nat.pow_succ, Nat.mul_mod]
      have hsh : (b ^^^ 2 ^ (t' + 1)) >>> 1 = (b >>> 1) ^^^ 2 ^ t' := by
        rw [Nat.shiftRight_one, Nat.shiftRight_one, Nat.xor_div_two]
        congr 1
        omega
      have hbit' : (b >>> 1).testBit t' = true := by
        rw [Nat.shiftRight_one, Nat.testBit_div_two]
        exact hbit
      have := ih t' (b >>> 1) (by omega) hbit'
      simp only [popCountGo, hsh, hlow]
      omega

theorem testBit_lt_64 {b t : Nat} (hb : b < 2 ^ 64) (ht : b.testBit t = true) : t < 64 := by
  by_contra hge
  push_neg at hge
  rw [Nat.testBit_eq_false_of_lt (lt_of_lt_of_le hb (Nat.pow_le_pow_right (by norm_num) hge))] at ht
  cases ht

theorem sub_one_testBit_of_odd {m : Nat} (hm : m % 2 = 1) :
    ∀ i, (m - 1).testBit i = if i = 0 then false else m.testBit i := by
  intro i
  have hm1 : m - 1 = 2 * (m / 2) := by omega
  match i with
  | 0 =>
    rw [hm1]
    simp [Nat.testBit_zero, Nat.mul_mod_right]
  | i + 1 =>
    rw [hm1]
    simp only [Nat.testBit_add_one, if_neg (Nat.succ_ne_zero i)]
    rw [Nat.mul_div_cancel_left _ (by norm_num : (0:Nat) < 2)]

theorem odd_and_two_pow_sub {s m : Nat} (hodd : m % 2 = 1) (hlt : m < 2 ^ s) :
    m &&& (2 ^ s - m) = 1 := by
  have hm0 : 0 < m := by omega
  have hs : 0 < s := by
    rcases Nat.eq_zero_or_pos s with h | h
    · subst h
      simp at hlt
      omega
    · exact h
  have hx : 2 ^ s - m = 2 ^ s - ((m - 1) + 1) := by omega
  apply Nat.eq_of_testBit_eq
  intro i
  rw [Nat.testBit_and, hx,
    Nat.testBit_two_pow_sub_succ (by omega : m - 1 < 2 ^ s) i,
    sub_one_testBit_of_odd hodd i]
  match i with
  | 0 =>
    have hb : m.testBit 0 = true := by
      rw [Nat.testBit_zero]
      simpa using hodd
    simp [hb, hs, Nat.testBit_one_zero]
  | i + 1 =>
    cases h : m.testBit (i + 1) <;> simp [h, Nat.testBit_add_one]

theorem and_two_pow_mul (t x y : Nat) : (2 ^ t * x) &&& (2 ^ t * y) = 2 ^ t * (x &&& y) := by
  apply Nat.eq_of_testBit_eq
  intro i
  rw [Nat.testBit_and]
  rw [show 2 ^ t * x = x <<< t by rw [Nat.shiftLeft_eq, Nat.mul_comm]]
  rw [show 2 ^ t * y = y <<< t by rw [Nat.shiftLeft_eq, Nat.mul_comm]]
  rw [show 2 ^ t * (x &&& y) = (x &&& y) <<< t by rw [Nat.shiftLeft_eq, Nat.mul_comm]]
  simp only [Nat.testBit_shiftLeft, Nat.testBit_and]
  cases hd : decide (t ≤ i) <;> simp

theorem FILLED_eq : FILLED_BOARD = 2 ^ 64 - 1 := by decide

theorem popLeast_eq {b : Nat} (h0 : 0 < b) (h64 : b < 2 ^ 64) :
    popLeastBitboard b = b &&& (2 ^ 64 - b) := by
  have hx : b ^^^ FILLED_BOARD = 2 ^ 64 - (b + 1) := by
    apply Nat.eq_of_testBit_eq
    intro i
    rw [Nat.testBit_xor, testBit_FILLED, Nat.testBit_two_pow_sub_succ h64 i]
    by_cases hi : i < 64
    · simp [hi]
    · push_neg at hi
      rw [Nat.testBit_eq_false_of_lt
        (lt_of_lt_of_le h64 (Nat.pow_le_pow_right (by norm_num) hi))]
      simp [hi]
  rw [popLeastBitboard, hx]
  have h1 : 2 ^ 64 - (b + 1) + 1 = 2 ^ 64 - b := by omega
  rw [h1, FILLED_eq, Nat.and_pow_two_sub_one_eq_mod, Nat.mod_eq_of_lt (by omega)]

theorem popLeast_two_pow {b : Nat} (h0 : 0 < b) (h64 : b < 2 ^ 64) :
    ∃ t, t < 64 ∧ b.testBit t = true ∧ popLeastBitboard b = 2 ^ t := by
  obtain ⟨k, m, hdvd, hbm⟩ := Nat.exists_eq_pow_mul_and_not_dvd (by omega : b ≠ 0) 2 (by norm_num)
  have hmodd : m % 2 = 1 := by omega
  have hm0 : 0 < m := by omega
  have hk64 : k < 64 := by
    by_contra hge
    push_neg at hge
    have : 2 ^ 64 ≤ 2 ^ k * m :=
      le_trans (Nat.pow_le_pow_right (by norm_num) hge)
        (Nat.le_mul_of_pos_right _ hm0)
    omega
  have hmlt : m < 2 ^ (64 - k) := by
    by_contra hge
    push_neg at hge
    have : 2 ^ k * 2 ^ (64 - k) ≤ 2 ^ k * m := Nat.mul_le_mul_left _ hge
    rw [← Nat.pow_add, Nat.add_sub_cancel' (by omega : k ≤ 64)] at this
    omega
  refine ⟨k, hk64, ?_, ?_⟩
  · rw [hbm, show (2:Nat) ^ k * m = m <<< k by rw [Nat.shiftLeft_eq, Nat.mul_comm]]
    simp [Nat.testBit_shiftLeft, Nat.testBit_zero, hmodd]
  · rw [popLeast_eq h0 h64, hbm]
    have hsub : 2 ^ 64 - 2 ^ k * m = 2 ^ k * (2 ^ (64 - k) - m) := by
      rw [Nat.mul_sub_left_distrib, ← Nat.pow_add, Nat.add_sub_cancel' (by omega : k ≤ 64)]
    rw [hsub, and_two_pow_mul, odd_and_two_pow_sub hmodd hmlt, Nat.mul_one]

theorem pdepGo_mask_zero (fuel p : Nat) : pdepGo fuel p 0 = 0 := by
  cases fuel <;> simp [pdepGo]

theorem countSetBits_zero : countSetBits 0 = 0 := by decide

theorem pdep_surj : ∀ fuel mask, mask < 2 ^ 64 → countSetBits mask ≤ fuel →
    ∀ c, c &&& mask = c → ∃ p, p < 2 ^ countSetBits mask ∧ pdepGo fuel p mask = c := by
  intro fuel
  induction fuel with
  | zero =>
    intro mask hm hcnt c hc
    have h0 : mask = 0 := popCountGo_eq_zero 64 mask hm (by
      simp only [countSetBits] at hcnt
      omega)
    subst h0
    rw [Nat.and_zero] at hc
    refine ⟨0, ?_, ?_⟩
    · rw [countSetBits_zero]
      norm_num
    · rw [pdepGo_mask_zero]
      omega
  | succ f ih =>
    intro mask hm hcnt c hc
    by_cases h0 : mask = 0
    · subst h0
      rw [Nat.and_zero] at hc
      refine ⟨0, ?_, ?_⟩
      · rw [countSetBits_zero]
        norm_num
      · rw [pdepGo_mask_zero]
        omega
    · obtain ⟨t, ht64, hbt, hpl⟩ := popLeast_two_pow (Nat.pos_of_ne_zero h0) hm
      have hm' : mask ^^^ 2 ^ t < 2 ^ 64 :=
        Nat.xor_lt_two_pow hm (Nat.pow_lt_pow_right (by norm_num) ht64)
      have hcnt' : countSetBits (mask ^^^ 2 ^ t) + 1 = countSetBits mask :=
        popCountGo_xor_two_pow 64 t mask ht64 hbt
      have hcc' : (c &&& (mask ^^^ 2 ^ t)) &&& (mask ^^^ 2 ^ t) = c &&& (mask ^^^ 2 ^ t) := by
        rw [Nat.and_assoc, Nat.and_self]
      obtain ⟨p', hp', hpd'⟩ := ih (mask ^^^ 2 ^ t) hm' (by omega) (c &&& (mask ^^^ 2 ^ t)) hcc'
      have hcj : ∀ j, c.testBit j = (c.testBit j && mask.testBit j) := by
        intro j
        conv_lhs => rw [← hc]
        rw [Nat.testBit_and]
      have hmask'j : ∀ j, j ≠ t → (mask ^^^ 2 ^ t).testBit j = mask.testBit j := by
        intro j hj
        rw [Nat.testBit_xor, Nat.testBit_two_pow_of_ne (fun he => hj he.symm)]
        simp
      have hmask't : (mask ^^^ 2 ^ t).testBit t = false := by
        rw [Nat.testBit_xor, hbt, Nat.testBit_two_pow_self]
        rfl
      refine ⟨2 * p' + (if c.testBit t then 1 else 0), ?_, ?_⟩
      · have hb1 : (if c.testBit t then 1 else 0) ≤ 1 := by split <;> omega
        have hpow := pow_succ 2 (countSetBits (mask ^^^ 2 ^ t))
        rw [← hcnt']
        omega
      · rw [pdepGo]
        have hne : (mask == 0) = false := by simp [h0]
        simp only [hne, Bool.false_eq_true, if_false, hpl]
        have hdiv : (2 * p' + (if c.testBit t then 1 else 0)) >>> 1 = p' := by
          rw [Nat.shiftRight_one]
          split <;> omega
        have hmod : (2 * p' + (if c.testBit t then 1 else 0)) % 2
            = (if c.testBit t then 1 else 0) := by
          split <;> omega
        rw [hdiv, hpd', hmod]
        cases hct : c.testBit t
        · simp only [hct, Bool.false_eq_true, if_false]
          rw [if_neg (by decide)]
          apply Nat.eq_of_testBit_eq
          intro j
          rw [Nat.testBit_and]
          by_cases hj : j = t
          · subst hj
            rw [hct, hmask't]
            rfl
          · rw [hmask'j j hj]
            rw [hcj j]
            cases c.testBit j <;> simp
        · simp only [hct, if_true]
          rw [if_pos (by decide)]
          apply Nat.eq_of_testBit_eq
          intro j
          rw [Nat.testBit_or, Nat.testBit_and]
          by_cases hj : j = t
          · subst hj
            rw [hct, Nat.testBit_two_pow_self]
            rfl
          · rw [Nat.testBit_two_pow_of_ne (fun he => hj he.symm), hmask'j j hj]
            rw [hcj j]
            cases c.testBit j <;> simp

theorem rayScan_testBit (sq : Nat) (rest : List Nat) (blockers : Nat) :
    (rayScan (sq :: rest) blockers true).testBit sq = true := by
  simp only [rayScan]
  split
  · simp [testBit_boardOf]
  · simp [Nat.testBit_or, testBit_boardOf]

theorem getRookAttacks_ne_zero {s : Nat} (hs : s < 64) (blockers : Nat) :
    getRookAttacks s blockers true ≠ 0 := by
  have hray : ∀ u, u < 64 → northRay u ≠ [] ∨ southRay u ≠ [] := by decide
  intro h0
  rcases hray s hs with hn | hsth
  · obtain ⟨q, rest, hq⟩ := List.exists_cons_of_ne_nil hn
    have hb : (getRookAttacks s blockers true).testBit q = true := by
      rw [getRookAttacks, hq]
      simp [Nat.testBit_or, rayScan_testBit]
    rw [h0] at hb
    simp at hb
  · obtain ⟨q, rest, hq⟩ := List.exists_cons_of_ne_nil hsth
    have hb : (getRookAttacks s blockers true).testBit q = true := by
      rw [getRookAttacks, hq]
      simp [Nat.testBit_or, rayScan_testBit]
    rw [h0] at hb
    simp at hb

theorem getBishopAttacks_ne_zero {s : Nat} (hs : s < 64) (blockers : Nat) :
    getBishopAttacks s blockers true ≠ 0 := by
  have hray : ∀ u, u < 64 →
      neRay u ≠ [] ∨ seRay u ≠ [] ∨ swRay u ≠ [] ∨ nwRay u ≠ [] := by decide
  intro h0
  have hb : ∃ q, (getBishopAttacks s blockers true).testBit q = true := by
    rcases hray s hs with hr | hr | hr | hr <;>
      (obtain ⟨q, rest, hq⟩ := List.exists_cons_of_ne_nil hr
       refine ⟨q, ?_⟩
       rw [getBishopAttacks, hq]
       simp [Nat.testBit_or, rayScan_testBit])
  obtain ⟨q, hb⟩ := hb
  rw [h0] at hb
  simp at hb

theorem masked_shift_lt (y shift maxP : Nat) (h : 2 ^ 64 ≤ maxP * 2 ^ shift) :
    (y &&& FILLED_BOARD) >>> shift < maxP := by
  have h1 : y &&& FILLED_BOARD < 2 ^ 64 :=
    lt_of_le_of_lt Nat.and_le_right
      (by rw [FILLED_eq]; exact Nat.sub_lt (Nat.two_pow_pos 64) (by norm_num))
  rw [Nat.shiftRight_eq_div_pow]
  rw [Nat.div_lt_iff_lt_mul (Nat.two_pow_pos shift)]
  exact lt_of_lt_of_le h1 h

theorem foldl_none_of (f : Option (List Nat) → Nat → Option (List Nat))
    (hf : ∀ a, f none a = none) : ∀ l : List Nat, l.foldl f none = none := by
  intro l
  induction l with
  | nil => rfl
  | cons q l ih =>
    rw [List.foldl_cons, hf]
    exact ih

theorem tryFold (f : Option (List Nat) → Nat → Option (List Nat))
    (hashf att : Nat → Nat) (maxP : Nat)
    (hfn : ∀ a, f none a = none)
    (hfs : ∀ A a, f (some A) a =
      if A.getD (hashf a) 0 == 0 then some (A.set (hashf a) (att a))
      else if A.getD (hashf a) 0 == att a then some A
      else none) :
    ∀ (l : List Nat) (A : List Nat), A.length = maxP →
      ∀ T, l.foldl f (some A) = some T →
      T.length = maxP ∧
      (∀ i v, v ≠ 0 → A.getD i 0 = v → T.getD i 0 = v) ∧
      (∀ p ∈ l, hashf p < maxP → att p ≠ 0 → T.getD (hashf p) 0 = att p) := by
  intro l
  induction l with
  | nil =>
    intro A hA T hT
    simp only [List.foldl_nil, Option.some.injEq] at hT
    subst hT
    exact ⟨hA, fun i v _ h => h, fun p hp => absurd hp (List.not_mem_nil p)⟩
  | cons q l ih =>
    intro A hA T hT
    rw [List.foldl_cons, hfs] at hT
    by_cases h1 : (A.getD (hashf q) 0 == 0) = true
    · rw [if_pos h1] at hT
      obtain ⟨hTlen, hmono, hl⟩ := ih (A.set (hashf q) (att q)) (by rw [List.length_set, hA]) T hT
      have h1' : A.getD (hashf q) 0 = 0 := by simpa using h1
      refine ⟨hTlen, ?_, ?_⟩
      · intro i v hv hAiv
        have hne : hashf q ≠ i := by
          intro he
          rw [← he] at hAiv
          rw [h1'] at hAiv
          exact hv hAiv.symm
        exact hmono i v hv (by rw [getD_set_ne hne]; exact hAiv)
      · intro p hp hplt hpne
        rcases List.mem_cons.mp hp with rfl | hpl
        · exact hmono _ _ hpne (getD_set_self (by rw [hA]; exact hplt) _ _)
        · exact hl p hpl hplt hpne
    · rw [if_neg h1] at hT
      by_cases h2 : (A.getD (hashf q) 0 == att q) = true
      · rw [if_pos h2] at hT
        obtain ⟨hTlen, hmono, hl⟩ := ih A hA T hT
        refine ⟨hTlen, hmono, ?_⟩
        intro p hp hplt hpne
        rcases List.mem_cons.mp hp with rfl | hpl
        · exact hmono _ _ hpne (by simpa using h2)
        · exact hl p hpl hplt hpne
      · rw [if_neg h2] at hT
        rw [foldl_none_of f hfn l] at hT
        cases hT

/-- C9: whenever a trial of the startup magic search accepts a magic number
for a square (no colliding hash maps two blocker permutations to different
attack sets), the resulting attack table is a perfect hash: for every
occupancy, looking up `(occupancy & blockerMask) * magic >> shift` in the
table yields exactly the iterative ray-scan attack set. -/
theorem claim_C9 (isCardinal : Bool) (square magic : Nat) (hsq : square < 64)
    (table : List Nat) (hacc : tryMagic isCardinal square magic = some table) (o : Nat) :
    table.getD
      ((((o &&& (if isCardinal then getRookBlockers square else getBishopBlockers square)) *
          magic) &&& FILLED_BOARD) >>> (if isCardinal then 52 else 55)) 0 =
      (if isCardinal then cardinalAttackLookup square o else ordinalAttackLookup square o) := by
  cases isCardinal
  case true =>
    simp only [ite_true, if_true]
    have hacc2 : (List.range (1 <<< countSetBits (getRookBlockers square))).foldl
        (fun acc permutation =>
          match acc with
          | none => none
          | some attacksSeen =>
            let blockers := pdepGo 64 permutation (getRookBlockers square)
            let attacks := getRookAttacks square blockers true
            let hash := ((blockers * magic) &&& FILLED_BOARD) >>> 52
            if attacksSeen.getD hash 0 == 0 then some (attacksSeen.set hash attacks)
            else if attacksSeen.getD hash 0 == attacks then some attacksSeen
            else none)
        (some (List.replicate 4096 0)) = some table := hacc
    obtain ⟨_, _, hmain⟩ := tryFold _
      (fun p => ((pdepGo 64 p (getRookBlockers square) * magic) &&& FILLED_BOARD) >>> 52)
      (fun p => getRookAttacks square (pdepGo 64 p (getRookBlockers square)) true)
      4096 (fun a => rfl) (fun A a => rfl)
      (List.range (1 <<< countSetBits (getRookBlockers square)))
      (List.replicate 4096 0) (List.length_replicate _ _) table hacc2
    have hmask64 : getRookBlockers square < 2 ^ 64 := by
      have hall : ∀ u, u < 64 → getRookBlockers u < 2 ^ 64 := by decide
      exact hall square hsq
    obtain ⟨p, hp, hpd⟩ := pdep_surj 64 (getRookBlockers square) hmask64 (popCountGo_le 64 _)
      (o &&& getRookBlockers square) (by rw [Nat.and_assoc, Nat.and_self])
    have hmem : p ∈ List.range (1 <<< countSetBits (getRookBlockers square)) := by
      rw [List.mem_range, Nat.one_shiftLeft]
      exact hp
    have hfin := hmain p hmem
      (masked_shift_lt _ 52 4096 (by norm_num))
      (getRookAttacks_ne_zero hsq _)
    simp only [] at hfin
    rw [hpd] at hfin
    exact hfin
  case false =>
    simp only [Bool.false_eq_true, ite_false, if_false]
    have hacc2 : (List.range (1 <<< countSetBits (getBishopBlockers square))).foldl
        (fun acc permutation =>
          match acc with
          | none => none
          | some attacksSeen =>
            let blockers := pdepGo 64 permutation (getBishopBlockers square)
            let attacks := getBishopAttacks square blockers true
            let hash := ((blockers * magic) &&& FILLED_BOARD) >>> 55
            if attacksSeen.getD hash 0 == 0 then some (attacksSeen.set hash attacks)
            else if attacksSeen.getD hash 0 == attacks then some attacksSeen
            else none)
        (some (List.replicate 512 0)) = some table := hacc
    obtain ⟨_, _, hmain⟩ := tryFold _
      (fun p => ((pdepGo 64 p (getBishopBlockers square) * magic) &&& FILLED_BOARD) >>> 55)
      (fun p => getBishopAttacks square (pdepGo 64 p (getBishopBlockers square)) true)
      512 (fun a => rfl) (fun A a => rfl)
      (List.range (1 <<< countSetBits (getBishopBlockers square)))
      (List.replicate 512 0) (List.length_replicate _ _) table hacc2
    have hmask64 : getBishopBlockers square < 2 ^ 64 := by
      have hall : ∀ u, u < 64 → getBishopBlockers u < 2 ^ 64 := by decide
      exact hall square hsq
    obtain ⟨p, hp, hpd⟩ := pdep_surj 64 (getBishopBlockers square) hmask64 (popCountGo_le 64 _)
      (o &&& getBishopBlockers square) (by rw [Nat.and_assoc, Nat.and_self])
    have hmem : p ∈ List.range (1 <<< countSetBits (getBishopBlockers square)) := by
      rw [List.mem_range, Nat.one_shiftLeft]
      exact hp
    have hfin := hmain p hmem
      (masked_shift_lt _ 55 512 (by norm_num))
      (getBishopAttacks_ne_zero hsq _)
    simp only [] at hfin
    rw [hpd] at hfin
    exact hfin

theorem claim_C9_witness :
    (0 : Nat) < 64 ∧
    tryMagic false 0 0x8004a0400908008 =
      some ((tryMagic false 0 0x8004a0400908008).getD []) ∧
    ((tryMagic false 0 0x8004a0400908008).getD []).getD
      ((((0xFF &&& getBishopBlockers 0) * 0x8004a0400908008) &&& FILLED_BOARD) >>> 55) 0 =
      ordinalAttackLookup 0 0xFF :=
  ⟨by decide, by decide,
   claim_C9 false 0 0x8004a0400908008 (by decide)
     ((tryMagic false 0 0x8004a0400908008).getD []) (by decide) 0xFF⟩

end Chess
